import Mathlib

/-!
Verification development for the execution and trigger engine of a serverless
workflow-automation platform.

The Lean definitions below are a shallow embedding of the Python sources:

* `src/lambdas/shared/interpolation.py`  (namespace `Interp`)
* `src/lambdas/poller/handler.py`        (namespace `Poller`)
* `src/lambdas/api/eventbridge.py`       (namespace `Eb`)
* `src/lambdas/execution_starter/handler.py` (namespace `Starter`)

Modelling conventions:

* Python/JSON run-time values are modelled by the inductive `Value`
  (JSON numbers are modelled as integers; floating point does not occur in
  the claims under study).
* External I/O collaborators (DynamoDB tables, the content fetcher, the
  SHA-256 digest, the Step Functions client, the SSM secret fetch) are
  modelled as explicit state / explicit function parameters; the pure logic
  around them is translated line by line from the source.
* Python exceptions are modelled with `Except`: a raised exception is an
  `Except.error`, and `try/except` blocks become matches on the result.
* Python string truthiness (`if s:`) is modelled as `s ≠ ""`, dict/list
  truthiness as non-emptiness.
-/

set_option maxHeartbeats 1000000

namespace AutoPlat

/-- Python/JSON run-time values (trigger payloads, step outputs,
interpolation contexts).  Numbers are modelled as integers. -/
inductive Value where
  | null
  | bool (b : Bool)
  | int (n : Int)
  | str (s : String)
  | list (xs : List Value)
  | dict (fields : List (String × Value))

/-- Lookup in an insertion-ordered association list, mirroring Python `dict`
key lookup (keys are unique in any dict produced by `json.loads`). -/
def findAssoc {α : Type} : List (String × α) → String → Option α
  | [], _ => none
  | (k, v) :: rest, key => if k = key then some v else findAssoc rest key

/-- Whether a key is present, mirroring Python `key in dict`. -/
def hasKey {α : Type} (l : List (String × α)) (key : String) : Bool :=
  (findAssoc l key).isSome

/-- Lowercase hexadecimal digit. -/
def hexDigit (n : Nat) : Char :=
  if n < 10 then Char.ofNat (48 + n) else Char.ofNat (87 + n)

/-- Four lowercase hex digits, as in Python's `\uXXXX` escapes. -/
def hex4 (n : Nat) : String :=
  String.mk [hexDigit ((n / 4096) % 16), hexDigit ((n / 256) % 16),
             hexDigit ((n / 16) % 16), hexDigit (n % 16)]

/-- Two lowercase hex digits, as in Python's `\xXX` escapes. -/
def hex2 (n : Nat) : String :=
  String.mk [hexDigit ((n / 16) % 16), hexDigit (n % 16)]

/-- Escaping of a single character by `json.dumps` with its defaults
(`ensure_ascii=True`): the short escapes, `\uXXXX` for other characters
outside `0x20`..`0x7e`, and surrogate pairs beyond the basic plane. -/
def jsonEscapeChar (c : Char) : String :=
  let n := c.toNat
  if c = '"' then "\\\""
  else if c = '\\' then "\\\\"
  else if c = '\n' then "\\n"
  else if c = '\r' then "\\r"
  else if c = '\t' then "\\t"
  else if n = 8 then "\\b"
  else if n = 12 then "\\f"
  else if n < 32 then "\\u" ++ hex4 n
  else if n < 127 then String.mk [c]
  else if n < 65536 then "\\u" ++ hex4 n
  else
    let v := n - 65536
    "\\u" ++ hex4 (55296 + v / 1024) ++ "\\u" ++ hex4 (56320 + v % 1024)

/-- A JSON string literal as rendered by `json.dumps`. -/
def jsonQuote (s : String) : String :=
  "\"" ++ String.join (s.data.map jsonEscapeChar) ++ "\""

mutual

/-- Serialization by `json.dumps(value)` with default arguments: note the
default separators are `", "` between items and `": "` after keys. -/
def jsonDumps : Value → String
  | .null => "null"
  | .bool true => "true"
  | .bool false => "false"
  | .int n => toString n
  | .str s => jsonQuote s
  | .list xs => "[" ++ jsonDumpsList xs ++ "]"
  | .dict fs => "\x7b" ++ jsonDumpsFields fs ++ "\x7d"

/-- Elements of a JSON array, joined by `", "`. -/
def jsonDumpsList : List Value → String
  | [] => ""
  | [x] => jsonDumps x
  | x :: y :: rest => jsonDumps x ++ ", " ++ jsonDumpsList (y :: rest)

/-- Members of a JSON object, `key": "value` pairs joined by `", "`. -/
def jsonDumpsFields : List (String × Value) → String
  | [] => ""
  | [(k, v)] => jsonQuote k ++ ": " ++ jsonDumps v
  | (k, v) :: p :: rest => jsonQuote k ++ ": " ++ jsonDumps v ++ ", " ++ jsonDumpsFields (p :: rest)

end

/-- The apostrophe character (written numerically). -/
def aposChar : Char := Char.ofNat 39

/-- Escaping of one character inside a Python `repr` string literal with the
chosen quote `q` (ASCII-accurate; printable non-ASCII is kept as-is). -/
def pyReprStringChar (q : Char) (c : Char) : String :=
  let n := c.toNat
  if c = '\\' then "\\\\"
  else if c = q then "\\" ++ String.mk [q]
  else if c = '\n' then "\\n"
  else if c = '\r' then "\\r"
  else if c = '\t' then "\\t"
  else if n < 32 || n = 127 then "\\x" ++ hex2 n
  else String.mk [c]

/-- Python `repr` of a string: single quotes unless the string contains a
single quote and no double quote. -/
def pyReprString (s : String) : String :=
  let q := if s.data.contains aposChar && !(s.data.contains '"') then '"' else aposChar
  String.mk [q] ++ String.join (s.data.map (pyReprStringChar q)) ++ String.mk [q]

mutual

/-- Python `repr(value)` over the modelled value universe. -/
def pyRepr : Value → String
  | .null => "None"
  | .bool true => "True"
  | .bool false => "False"
  | .int n => toString n
  | .str s => pyReprString s
  | .list xs => "[" ++ pyReprList xs ++ "]"
  | .dict fs => "\x7b" ++ pyReprFields fs ++ "\x7d"

/-- Elements of a Python list `repr`, joined by `", "`. -/
def pyReprList : List Value → String
  | [] => ""
  | [x] => pyRepr x
  | x :: y :: rest => pyRepr x ++ ", " ++ pyReprList (y :: rest)

/-- Members of a Python dict `repr`. -/
def pyReprFields : List (String × Value) → String
  | [] => ""
  | [(k, v)] => pyReprString k ++ ": " ++ pyRepr v
  | (k, v) :: p :: rest => pyReprString k ++ ": " ++ pyRepr v ++ ", " ++ pyReprFields (p :: rest)

end

/-- Python `str(value)`: identity on strings, `repr` on containers. -/
def pyStr : Value → String
  | .null => "None"
  | .bool true => "True"
  | .bool false => "False"
  | .int n => toString n
  | .str s => s
  | .list xs => pyRepr (.list xs)
  | .dict fs => pyRepr (.dict fs)

/-- Python `type(value).__name__` over the modelled value universe. -/
def typeName : Value → String
  | .null => "NoneType"
  | .bool _ => "bool"
  | .int _ => "int"
  | .str _ => "str"
  | .list _ => "list"
  | .dict _ => "dict"

namespace Interp

/-- Whitespace as stripped by Python `str.strip()` (ASCII-accurate: space,
tab, newline, carriage return, vertical tab, form feed). -/
def isPySpace (c : Char) : Bool :=
  c = ' ' || c = '\t' || c = '\n' || c = '\r' || c.toNat = 11 || c.toNat = 12

/-- Python `str.strip()`: remove leading and trailing whitespace. -/
def pyStrip (s : String) : String :=
  String.mk (((s.data.dropWhile isPySpace).reverse.dropWhile isPySpace).reverse)

/-- The character-level worker for Python `str.split(".")`. -/
def pySplitDotChars : List Char → List Char → List String
  | acc, [] => [String.mk acc.reverse]
  | acc, c :: rest =>
      if c = '.' then String.mk acc.reverse :: pySplitDotChars [] rest
      else pySplitDotChars (c :: acc) rest

/-- Python `str.split(".")`: split on every dot, keeping empty pieces
(the empty string splits to `[""]`). -/
def pySplitDot (s : String) : List String :=
  pySplitDotChars [] s.data

/-- The `InterpolationError{path, message}` raised by the interpolation
engine (`interpolation.py`). -/
structure IErr where
  path : String
  msg : String
deriving DecidableEq, Repr

/-- Numeric value of a digit string (the index captured by
`ARRAY_INDEX_PATTERN`). -/
def digitsToNat (ds : List Char) : Nat :=
  ds.foldl (fun acc c => acc * 10 + (c.toNat - 48)) 0

/-- Matching of one path segment against `ARRAY_INDEX_PATTERN`
(`^(.+?)\[(\d+)\]$`): the segment must end in `]`, the bracketed suffix must
be all digits, and the key before the final `[` must be non-empty.  The lazy
`(.+?)` makes the key everything up to the last `[`. -/
def splitIndexPart (part : String) : Option (String × Nat) :=
  match part.data.getLast? with
  | some c =>
    if c = ']' then
      let rev := part.data.dropLast.reverse
      let ds := rev.takeWhile (fun d => d.isDigit)
      match rev.drop ds.length with
      | '[' :: keyRev =>
        if ds.isEmpty || keyRev.isEmpty then none
        else some (String.mk keyRev.reverse, digitsToNat ds.reverse)
      | _ => none
    else none
  | none => none

/-- The segment walk of `_resolve_path`: each step first checks for `None`,
then handles an indexed segment (dict lookup of the key, then list
indexing) or a plain key (dict lookup); every mismatch raises
`InterpolationError` with the full path. -/
def resolveLoop (path : String) : Value → List String → Except IErr Value
  | cur, [] => .ok cur
  | .null, part :: _ =>
      .error ⟨path, "Cannot access \x27" ++ part ++ "\x27 on None"⟩
  | cur, part :: rest =>
      match splitIndexPart part with
      | some (key, index) =>
        match cur with
        | .dict fields =>
          match findAssoc fields key with
          | none => .error ⟨path, "Key \x27" ++ key ++ "\x27 not found"⟩
          | some arr =>
            match arr with
            | .list xs =>
              match xs.get? index with
              | some v => resolveLoop path v rest
              | none => .error ⟨path, "Index " ++ toString index ++
                  " out of range (length " ++ toString xs.length ++ ")"⟩
            | other => .error ⟨path, "Expected list for index [" ++ toString index ++
                "], got " ++ typeName other⟩
        | other => .error ⟨path, "Expected dict to access \x27" ++ key ++
            "\x27, got " ++ typeName other⟩
      | none =>
        match cur with
        | .dict fields =>
          match findAssoc fields part with
          | some v => resolveLoop path v rest
          | none => .error ⟨path, "Key \x27" ++ part ++ "\x27 not found"⟩
        | .list _ => .error ⟨path, "Cannot access key \x27" ++ part ++ "\x27 on list"⟩
        | other => .error ⟨path, "Cannot access \x27" ++ part ++ "\x27 on " ++ typeName other⟩

/-- `_resolve_path(context, path)`: strip the path, split on `"."` and walk. -/
def resolvePath (context : Value) (path : String) : Except IErr Value :=
  resolveLoop path context (pySplitDot (pyStrip path))

/-- Quote character test for the `default(...)` filter argument
(`['\"]` in the source regex: either quote kind). -/
def isQuoteChar (c : Char) : Bool :=
  c = '"' || c = aposChar

/-- Lazy scan for the end of the `default(...)` argument, mirroring the
non-greedy `(.+?)['\"]\)`: the argument ends at the first quote that is
immediately followed by `)` after at least one argument character. -/
def findDefaultArg : List Char → List Char → Option String
  | acc, c1 :: c2 :: rest =>
      if isQuoteChar c1 && c2 = ')' && !acc.isEmpty then some (String.mk acc.reverse)
      else findDefaultArg (c1 :: acc) (c2 :: rest)
  | _, _ => none

/-- Matching of `re.match(r"default\(['\"](.+?)['\"]\)", filter_name)`
(anchored at the start only; trailing characters are ignored). -/
def parseDefaultFilter (s : String) : Option String :=
  match s.data with
  | 'd' :: 'e' :: 'f' :: 'a' :: 'u' :: 'l' :: 't' :: '(' :: q :: rest =>
      if isQuoteChar q then findDefaultArg [] rest else none
  | _ => none

/-- `_apply_filter(value, filter_expr, path)`. -/
def applyFilter (value : Value) (filterExpr : String) (path : String) : Except IErr Value :=
  let filterName := pyStrip filterExpr
  match parseDefaultFilter filterName with
  | some d => .ok (match value with | .null => .str d | v => v)
  | none =>
    if filterName = "upper" then
      match value with
      | .str s => .ok (.str s.toUpper)
      | v => .error ⟨path, "Filter \x27upper\x27 requires string, got " ++ typeName v⟩
    else if filterName = "lower" then
      match value with
      | .str s => .ok (.str s.toLower)
      | v => .error ⟨path, "Filter \x27lower\x27 requires string, got " ++ typeName v⟩
    else if filterName = "string" then
      .ok (.str (match value with | .null => "" | v => pyStr v))
    else if filterName = "json" then
      .ok value
    else .error ⟨path, "Unknown filter: " ++ filterName⟩

/-- String conversion applied by `_interpolate_string.replace_match` to a
resolved (and filtered) value before splicing it into the template. -/
def embedValue : Value → String
  | .null => ""
  | .bool b => if b then "true" else "false"
  | .dict fs => jsonDumps (.dict fs)
  | .list xs => jsonDumps (.list xs)
  | .str s => s
  | .int n => toString n

/-- A template string as scanned by `VARIABLE_PATTERN`: literal stretches
and placeholders, a placeholder carrying its (whitespace-trimmed) path and
at most one filter expression — the capture groups of the regex. -/
inductive Segment where
  | lit (s : String)
  | placeholder (path : String) (filt : Option String)

/-- `_interpolate_string` over the scanned segment list: each placeholder is
resolved, optionally filtered, converted by `embedValue` and concatenated
with the literals. -/
def interpolateSegments (segs : List Segment) (context : Value) : Except IErr String :=
  match segs with
  | [] => .ok ""
  | .lit s :: rest => do
      let r ← interpolateSegments rest context
      .ok (s ++ r)
  | .placeholder p f :: rest => do
      let v ← resolvePath context p
      let v2 ← match f with
        | some fe => applyFilter v fe p
        | none => pure v
      let r ← interpolateSegments rest context
      .ok (embedValue v2 ++ r)

end Interp

namespace Poller

/-- Cap on the seen-id list (`MAX_SEEN_ITEMS` in `poller/handler.py`). -/
def MAX_SEEN_ITEMS : Nat := 500

/-- Cap on feed items processed per poll (`MAX_FEED_ITEMS`). -/
def MAX_FEED_ITEMS : Nat := 100

/-- Auto-disable threshold (`MAX_CONSECUTIVE_FAILURES`). -/
def MAX_CONSECUTIVE_FAILURES : Nat := 4

/-- A normalized feed item as produced by `parse_feed` (title, link, guid,
published, summary — the guid is the best-effort stable identity). -/
structure FeedItem where
  title : String
  link : String
  guid : String
  published : String
  summary : String
deriving DecidableEq, Repr

/-- Persisted poll state for one workflow (`PollState` record; a missing
record reads as the defaults used by the `.get` calls in the handler). -/
structure PollState where
  seen_item_ids : List String
  last_content_hash : Option String
  consecutive_failures : Nat
  last_error : Option String
deriving DecidableEq, Repr

/-- `find_new_items(items, seen_ids)`: keep only the items whose guid is not
in the seen set, preserving feed order. -/
def find_new_items (items : List FeedItem) (seen_ids : List String) : List FeedItem :=
  items.filter (fun item => !(seen_ids.contains item.guid))

/-- `prune_seen_ids(seen_ids, new_ids)`: append then keep the most recent
`MAX_SEEN_ITEMS` entries (`combined[-MAX_SEEN_ITEMS:]`). -/
def prune_seen_ids (seen_ids new_ids : List String) : List String :=
  let combined := seen_ids ++ new_ids
  if combined.length > MAX_SEEN_ITEMS then combined.drop (combined.length - MAX_SEEN_ITEMS)
  else combined

/-- The state fields written by a successful feed poll. -/
structure FeedStateUpdates where
  seen_item_ids : List String
  last_checked_at : String
  consecutive_failures : Nat
  last_error : Option String
deriving DecidableEq, Repr

/-- `poll_feed(url, content_type, poll_state)` with the external fetch/parse
collaborators factored out: `items` is the output of
`parse_feed(fetch_url(url))`, which caps the list at `MAX_FEED_ITEMS`.
Returns the new items and the state updates. -/
def poll_feed (items : List FeedItem) (poll_state : PollState) (now : String) :
    List FeedItem × FeedStateUpdates :=
  let seen_ids := poll_state.seen_item_ids
  let new_items := find_new_items items seen_ids
  let all_item_ids := items.map (·.guid)
  let updated_seen_ids := prune_seen_ids seen_ids all_item_ids
  (new_items,
   { seen_item_ids := updated_seen_ids
     last_checked_at := now
     consecutive_failures := 0
     last_error := none })

/-- JSON shape of one feed item inside the trigger payload. -/
def feedItemValue (it : FeedItem) : Value :=
  .dict [("title", .str it.title), ("link", .str it.link), ("guid", .str it.guid),
         ("published", .str it.published), ("summary", .str it.summary)]

/-- The handler's feed branch decision (`if new_items:` …): an execution is
queued with the items payload exactly when the new-item list is non-empty. -/
def feedTriggerData (content_type : String) (new_items : List FeedItem) : Option Value :=
  if new_items.isEmpty then none
  else some (.dict [("type", .str "poll"), ("content_type", .str content_type),
                    ("items", .list (new_items.map feedItemValue))])

/-- `check_http_changed(content, last_hash)` with the SHA-256 digest
abstracted as the function parameter `hashFn`. -/
def check_http_changed (hashFn : String → String) (content : String)
    (last_hash : Option String) : Bool × String :=
  let current_hash := hashFn content
  let changed := match last_hash with
    | none => true
    | some h => current_hash != h
  (changed, current_hash)

/-- The state fields written by a successful HTTP poll. -/
structure HttpStateUpdates where
  last_content_hash : String
  last_checked_at : String
  consecutive_failures : Nat
  last_error : Option String
deriving DecidableEq, Repr

/-- `poll_http(url, poll_state)` with fetching and hashing abstracted:
returns the trigger payload (only on a change that is not the first
observation) and the state updates (always carrying the current digest). -/
def poll_http (hashFn : String → String) (content : String) (poll_state : PollState)
    (now : String) : Option Value × HttpStateUpdates :=
  let last_hash := poll_state.last_content_hash
  let (changed, current_hash) := check_http_changed hashFn content last_hash
  let state_updates : HttpStateUpdates :=
    { last_content_hash := current_hash
      last_checked_at := now
      consecutive_failures := 0
      last_error := none }
  if changed && last_hash.isSome then
    (some (.dict [("type", .str "poll"), ("content_type", .str "http"),
                  ("content", .str (content.take 10000)),
                  ("content_hash", .str current_hash)]),
     state_updates)
  else (none, state_updates)

/-- The observable state the failure policy acts on: the workflow's enabled
flag, the EventBridge poll rule state, the persisted failure counter and
last error, and a counter of Discord notifications sent. -/
structure PollerSys where
  enabled : Bool
  ruleEnabled : Bool
  consecutive_failures : Nat
  last_error : Option String
  notificationsSent : Nat
deriving DecidableEq, Repr

/-- `handle_failure(workflow_id, poll_state, error)`: increment the counter,
record the truncated error, and on reaching `MAX_CONSECUTIVE_FAILURES`
disable the workflow, disable the EventBridge rule and send the
notification. -/
def handle_failure (s : PollerSys) (error : String) : PollerSys :=
  let failures := s.consecutive_failures + 1
  let s1 := { s with consecutive_failures := failures, last_error := some (error.take 1000) }
  if failures ≥ MAX_CONSECUTIVE_FAILURES then
    { s1 with enabled := false, ruleEnabled := false,
              notificationsSent := s1.notificationsSent + 1 }
  else s1

/-- Outcome of one poll attempt: the fetch/parse either succeeded (the poll
functions then write `consecutive_failures = 0, last_error = None`) or
raised an error. -/
inductive PollOutcome where
  | succeeded
  | failed (error : String)

/-- One handler invocation as a step relation on `PollerSys`: a disabled
workflow is skipped before any polling (`handler` returns
`workflow_disabled`); otherwise the poll outcome is applied — success
resets the failure state, failure runs `handle_failure`. -/
def pollerStep (s : PollerSys) (o : PollOutcome) : PollerSys :=
  if s.enabled then
    match o with
    | .succeeded => { s with consecutive_failures := 0, last_error := none }
    | .failed e => handle_failure s e
  else s

/-- The trajectory from a healthy initial state under consecutive failures. -/
def runFailures (error : String) : Nat → PollerSys
  | 0 => { enabled := true, ruleEnabled := true, consecutive_failures := 0,
           last_error := none, notificationsSent := 0 }
  | n + 1 => pollerStep (runFailures error n) (.failed error)

end Poller

namespace Eb

/-- An EventBridge rule as the Trigger Reconciler sees it: schedule
expression, enabled state, and its targets (target id ↦ target ARN). -/
structure EbRule where
  scheduleExpression : String
  state : Bool
  targets : List (String × String)
deriving DecidableEq, Repr

/-- The external schedule registry, keyed by rule name (EventBridge itself
keys rules by name, so reachable registries have unique keys). -/
abbrev Registry := List (String × EbRule)

/-- Environment of `eventbridge.py`: environment name and the two target
Lambda ARNs. -/
structure EbConfig where
  env : String
  cronHandlerArn : String
  pollerArn : String

/-- `get_rule_name(workflow_id)`: the cron rule name. -/
def get_rule_name (cfg : EbConfig) (workflow_id : String) : String :=
  "automations-" ++ cfg.env ++ "-" ++ workflow_id ++ "-schedule"

/-- `get_poll_rule_name(workflow_id)`: the poll rule name. -/
def get_poll_rule_name (cfg : EbConfig) (workflow_id : String) : String :=
  "automations-" ++ cfg.env ++ "-" ++ workflow_id ++ "-poll"

/-- Whether the registry has a rule of this name. -/
def hasRule (r : Registry) (name : String) : Bool :=
  (findAssoc r name).isSome

/-- Update the rule stored under a name in place (the registry operations
below all modify one named rule and leave the rest untouched). -/
def mapAtKey (name : String) (f : EbRule → EbRule) (r : Registry) : Registry :=
  r.map (fun p => if p.1 = name then (name, f p.2) else p)

/-- `events.put_rule`: create-or-update by name; an update replaces the
schedule expression and state and keeps the targets. -/
def put_rule (name scheduleExpr : String) (enabled : Bool) (r : Registry) : Registry :=
  if hasRule r name then
    mapAtKey name (fun old =>
      { scheduleExpression := scheduleExpr, state := enabled, targets := old.targets }) r
  else r ++ [(name, { scheduleExpression := scheduleExpr, state := enabled, targets := [] })]

/-- Upsert of one target by id in a rule's target list. -/
def upsertTarget (tid arn : String) : List (String × String) → List (String × String)
  | [] => [(tid, arn)]
  | (i, a) :: rest => if i = tid then (tid, arn) :: rest else (i, a) :: upsertTarget tid arn rest

/-- `events.put_targets`: fails with `ResourceNotFoundException` when the
rule does not exist, otherwise upserts the target. -/
def put_targets (ruleName tid arn : String) (r : Registry) : Except String Registry :=
  if hasRule r ruleName then
    .ok (mapAtKey ruleName
      (fun rule => { rule with targets := upsertTarget tid arn rule.targets }) r)
  else .error "ResourceNotFoundException"

/-- `events.remove_targets`: fails with `ResourceNotFoundException` when the
rule does not exist, otherwise removes the target id. -/
def remove_targets (ruleName tid : String) (r : Registry) : Except String Registry :=
  if hasRule r ruleName then
    .ok (mapAtKey ruleName
      (fun rule => { rule with targets := rule.targets.filter (fun t => t.1 != tid) }) r)
  else .error "ResourceNotFoundException"

/-- `events.delete_rule`: fails with `ResourceNotFoundException` when the
rule does not exist, otherwise removes it. -/
def delete_rule (ruleName : String) (r : Registry) : Except String Registry :=
  if hasRule r ruleName then .ok (r.filter (fun p => p.1 != ruleName))
  else .error "ResourceNotFoundException"

/-- `create_schedule_rule(workflow_id, schedule)`: raises `ValueError` when
the cron handler ARN is unconfigured; otherwise upserts the rule (schedule
wrapped in `cron(...)`, state ENABLED) and sets the `cron-handler` target. -/
def create_schedule_rule (cfg : EbConfig) (workflow_id schedule : String) (r : Registry) :
    Except String Registry :=
  if cfg.cronHandlerArn = "" then .error "Cron handler Lambda ARN not configured"
  else
    let rule_name := get_rule_name cfg workflow_id
    let schedule_expression := "cron(" ++ schedule ++ ")"
    put_targets rule_name "cron-handler" cfg.cronHandlerArn
      (put_rule rule_name schedule_expression true r)

/-- `delete_schedule_rule(workflow_id)`: remove targets first; a
`ResourceNotFoundException` there means the rule is absent and the function
returns, otherwise the rule is deleted (not-found swallowed). -/
def delete_schedule_rule (cfg : EbConfig) (workflow_id : String) (r : Registry) :
    Except String Registry :=
  let rule_name := get_rule_name cfg workflow_id
  match remove_targets rule_name "cron-handler" r with
  | .error _ => .ok r
  | .ok r1 =>
    match delete_rule rule_name r1 with
    | .error _ => .ok r1
    | .ok r2 => .ok r2

/-- `create_poll_rule(workflow_id, interval_minutes)`: raises `ValueError`
when the poller ARN is unconfigured; enforces the 5-minute minimum
interval; upserts the rule and sets the `poller` target. -/
def create_poll_rule (cfg : EbConfig) (workflow_id : String) (interval_minutes : Int)
    (r : Registry) : Except String Registry :=
  if cfg.pollerArn = "" then .error "Poller Lambda ARN not configured"
  else
    let rule_name := get_poll_rule_name cfg workflow_id
    let interval := max interval_minutes 5
    let schedule := if interval > 1 then "rate(" ++ toString interval ++ " minutes)"
                    else "rate(1 minute)"
    put_targets rule_name "poller" cfg.pollerArn (put_rule rule_name schedule true r)

/-- `delete_poll_rule(workflow_id)`: like `delete_schedule_rule` for the
poll rule and the `poller` target. -/
def delete_poll_rule (cfg : EbConfig) (workflow_id : String) (r : Registry) :
    Except String Registry :=
  let rule_name := get_poll_rule_name cfg workflow_id
  match remove_targets rule_name "poller" r with
  | .error _ => .ok r
  | .ok r1 =>
    match delete_rule rule_name r1 with
    | .error _ => .ok r1
    | .ok r2 => .ok r2

/-- Verification-side measure: how many rules of a given name the registry
holds (used to state that reconciliation leaves no duplicate rule). -/
def countKey : Registry → String → Nat
  | [], _ => 0
  | (k, _) :: rest, n => (if k = n then 1 else 0) + countKey rest n

/-- Poll/cron trigger configuration as stored on the workflow (each field
read with a `.get` default in the source). -/
structure TriggerConfig where
  schedule : Option String
  url : Option String
  interval_minutes : Option Int
deriving DecidableEq, Repr

/-- A workflow trigger: its type tag and configuration. -/
structure Trigger where
  type : String
  config : TriggerConfig
deriving DecidableEq, Repr

/-- `sync_workflow_rule(workflow_id, old_trigger, new_trigger)`: per-kind
state transition — for each of cron and poll, create-or-update when the new
trigger is of that kind (skipped with a warning when the required
schedule/URL is missing), delete when only the old trigger was of that
kind, no-op otherwise. -/
def sync_workflow_rule (cfg : EbConfig) (workflow_id : String)
    (old_trigger new_trigger : Option Trigger) (r : Registry) : Except String Registry := do
  let old_type : Option String := old_trigger.map (·.type)
  let new_type : Option String := new_trigger.map (·.type)
  let r1 ←
    if new_type = some "cron" then
      let schedule := match new_trigger with
        | some t => t.config.schedule.getD ""
        | none => ""
      if schedule ≠ "" then create_schedule_rule cfg workflow_id schedule r
      else .ok r
    else if old_type = some "cron" then delete_schedule_rule cfg workflow_id r
    else .ok r
  let r2 ←
    if new_type = some "poll" then
      let url := match new_trigger with
        | some t => t.config.url.getD ""
        | none => ""
      let interval := match new_trigger with
        | some t => t.config.interval_minutes.getD 15
        | none => 15
      if url ≠ "" then create_poll_rule cfg workflow_id interval r1
      else .ok r1
    else if old_type = some "poll" then delete_poll_rule cfg workflow_id r1
    else .ok r1
  .ok r2

end Eb

namespace Starter

/-- A workflow step definition as read with `.get` in
`parse_step_results` (`step_id`, `name`, `type`, each possibly absent). -/
structure StepDef where
  step_id : Option String
  name : Option String
  type : Option String
deriving DecidableEq, Repr

/-- One entry of the execution record's step-results array. `started_at`
and `completed_at` are always `None` ("not available from current SFN
output"); `duration_ms`, `input`, `output`, `error` carry whatever the
orchestrator reported (`Value.null` when absent). -/
structure StepResult where
  step_id : String
  name : String
  type : String
  status : String
  started_at : Option String
  completed_at : Option String
  duration_ms : Value
  input : Value
  output : Value
  error : Value

/-- The default step id `step_{idx}` used when a step definition has none. -/
def stepIdOf (idx : Nat) (sd : StepDef) : String :=
  sd.step_id.getD ("step_" ++ toString idx)

/-- The Python value stored in a step's `error` field for the failing step:
the composed error message, or `None` when no message was supplied. -/
def errorValue (error_message : Option String) : Value :=
  match error_message with
  | some m => .str m
  | none => .null

/-- Python numeric coercion for comparisons with a step index: ints compare
directly and bools compare as 0/1; any other value makes `idx < value`
raise `TypeError`. -/
def asPyNumber : Value → Option Int
  | .int n => some n
  | .bool b => some (if b then 1 else 0)
  | _ => none

/-- The body of the `for idx, step_def in enumerate(workflow_steps)` loop in
`parse_step_results`: `.get` on a non-dict raises `AttributeError` (not in
the local `except` list), and comparing the index against a non-numeric
`failed_step_index` raises `TypeError`; both escape the function. -/
def buildStep (context_steps : Value) (failed_step_index : Option Value)
    (error_message : Option String) (idx : Nat) (step_def : StepDef) :
    Except String StepResult := do
  let step_id := stepIdOf idx step_def
  let cfields ← match context_steps with
    | Value.dict fs => Except.ok fs
    | _ => Except.error "AttributeError: object has no attribute get"
  let step_data := (findAssoc cfields step_id).getD (.dict [])
  let step_status ← match failed_step_index with
    | some fv =>
      match asPyNumber fv with
      | some f =>
          Except.ok (if (idx : Int) < f then "success"
                     else if (idx : Int) = f then "failed"
                     else "skipped")
      | none => Except.error "TypeError: unsupported comparison"
    | none =>
      Except.ok (if hasKey cfields step_id then "success" else "skipped")
  let sfields ← match step_data with
    | Value.dict fs => Except.ok fs
    | _ => Except.error "AttributeError: object has no attribute get"
  let isFailedIdx : Bool := match failed_step_index with
    | some fv => asPyNumber fv == some (idx : Int)
    | none => false
  let errVal : Value :=
    if isFailedIdx then errorValue error_message
    else (findAssoc sfields "error").getD .null
  Except.ok
    { step_id := step_id
      name := step_def.name.getD step_id
      type := step_def.type.getD "unknown"
      status := step_status
      started_at := none
      completed_at := none
      duration_ms := (findAssoc sfields "duration_ms").getD .null
      input := (findAssoc sfields "input").getD .null
      output := (findAssoc sfields "output").getD .null
      error := errVal }

/-- The loop of `parse_step_results` over the workflow's steps, carrying the
running index. -/
def buildSteps (context_steps : Value) (failed_step_index : Option Value)
    (error_message : Option String) : Nat → List StepDef → Except String (List StepResult)
  | _, [] => .ok []
  | idx, sd :: rest => do
      let r ← buildStep context_steps failed_step_index error_message idx sd
      let rs ← buildSteps context_steps failed_step_index error_message (idx + 1) rest
      .ok (r :: rs)

/-- Extraction of `context.steps` from the Step Functions output.
`sfn_output` is `none` for a missing/empty output string; `some (.error _)`
stands for a string `json.loads` rejects (`JSONDecodeError`, caught: the
steps default to empty); `some (.ok j)` is parsed JSON, on which the
chained `.get` calls raise `AttributeError` (uncaught) if `j`, or its
`context` member, is not an object. -/
def extractContextSteps (sfn_output : Option (Except String Value)) : Except String Value :=
  match sfn_output with
  | none => .ok (.dict [])
  | some (.error _) => .ok (.dict [])
  | some (.ok j) =>
    match j with
    | .dict fields =>
      match (findAssoc fields "context").getD (.dict []) with
      | .dict cfields => .ok ((findAssoc cfields "steps").getD (.dict []))
      | _ => .error "AttributeError: object has no attribute get"
    | _ => .error "AttributeError: object has no attribute get"

/-- `parse_step_results(sfn_output, workflow_steps, failed_step_index,
error_message)`: parse the orchestrator output and rebuild the step-results
array in the workflow's step order. -/
def parse_step_results (sfn_output : Option (Except String Value))
    (workflow_steps : List StepDef) (failed_step_index : Option Value)
    (error_message : Option String) : Except String (List StepResult) := do
  let context_steps ← extractContextSteps sfn_output
  buildSteps context_steps failed_step_index error_message 0 workflow_steps

/-- The process-lifetime secrets cache (`_secrets_cache`,
`_secrets_cache_time`). -/
structure SecretsCache where
  values : List (String × String)
  fetchedAt : Nat
deriving DecidableEq, Repr

/-- `SECRETS_CACHE_TTL` (5 minutes). -/
def SECRETS_CACHE_TTL : Nat := 300

/-- `resolve_secrets()`: the cache is used only when non-empty (dict
truthiness) and younger than the TTL; otherwise the store is fetched —
a fetch failure returns an empty dict without touching the cache, a fetch
success replaces the cache and its timestamp.  The third component records
whether a fetch was attempted. -/
def resolve_secrets (fetch : Except String (List (String × String))) (now : Nat)
    (cache : SecretsCache) : List (String × String) × SecretsCache × Bool :=
  if cache.values ≠ [] ∧ now - cache.fetchedAt < SECRETS_CACHE_TTL then
    (cache.values, cache, false)
  else
    match fetch with
    | .error _ => ([], cache, true)
    | .ok secrets => (secrets, { values := secrets, fetchedAt := now }, true)

/-- A workflow record as read by the execution starter. -/
structure Workflow where
  name : Option String
  enabled : Option Bool
  steps : List StepDef
deriving DecidableEq, Repr

/-- A parsed SQS message body (`workflow_id`, `trigger_type`,
`trigger_data`). -/
structure MsgBody where
  workflow_id : String
  trigger_type : String
  trigger_data : Value

/-- An execution record in the executions table. -/
structure ExecRecord where
  workflow_id : String
  execution_id : String
  workflow_name : String
  status : String
  trigger_type : String
  trigger_data : Value
  steps : List StepResult
  started_at : String
  finished_at : Option String
  error : Option String
  ttl : Nat
  updated_at : Option String

/-- The input handed to the external step orchestrator. -/
structure SfnInput where
  execution_id : String
  workflow_id : String
  workflow : Workflow
  trigger_data : Value
  secrets : List (String × String)

/-- The terminal response of `start_sync_execution`. -/
structure SfnResponse where
  status : Option String
  output : Option (Except String Value)
  error : Option String
  cause : Option String

/-- External collaborators and ambient values of one `process_record`
invocation: the workflows table, the secret fetch, clock values, the fresh
execution id and the Step Functions call (an `Except.error` models the
invocation itself raising). -/
structure StarterEnv where
  workflows : List (String × Workflow)
  fetchSecrets : Except String (List (String × String))
  nowEpoch : Nat
  now : String
  ttl : Nat
  executionId : String
  sfn : SfnInput → Except String SfnResponse

/-- `create_execution`: put a fresh `pending` record. -/
def create_execution (store : List ExecRecord) (workflow_id execution_id trigger_type : String)
    (trigger_data : Value) (workflow_name : String) (now : String) (ttl : Nat) :
    List ExecRecord :=
  store ++ [{ workflow_id := workflow_id
              execution_id := execution_id
              workflow_name := workflow_name
              status := "pending"
              trigger_type := trigger_type
              trigger_data := trigger_data
              steps := []
              started_at := now
              finished_at := none
              error := none
              ttl := ttl
              updated_at := none }]

/-- `update_execution_status`: set status and `updated_at`; terminal
statuses also set `finished_at`; the error is written only when truthy. -/
def update_execution_status (store : List ExecRecord) (wid eid status : String)
    (error : Option String) (now : String) : List ExecRecord :=
  store.map (fun r =>
    if r.workflow_id = wid ∧ r.execution_id = eid then
      { r with
        status := status
        updated_at := some now
        finished_at := if status = "success" ∨ status = "failed" then some now else r.finished_at
        error := match error with
          | some e => if e ≠ "" then some e else r.error
          | none => r.error }
    else r)

/-- `update_execution_with_results`: set final status, the step-results
array and the finish timestamps; the error is written only when truthy. -/
def update_execution_with_results (store : List ExecRecord) (wid eid status : String)
    (steps : List StepResult) (error : Option String) (now : String) : List ExecRecord :=
  store.map (fun r =>
    if r.workflow_id = wid ∧ r.execution_id = eid then
      { r with
        status := status
        steps := steps
        finished_at := some now
        updated_at := some now
        error := match error with
          | some e => if e ≠ "" then some e else r.error
          | none => r.error }
    else r)

/-- `process_record(record)`: the per-message state machine of the
execution starter.  Returns the executions store, the secrets cache and
the outcome (`Except.error` models the function raising, which makes the
queue redeliver the message). -/
def process_record (env : StarterEnv) (body : MsgBody) (cache : SecretsCache)
    (store : List ExecRecord) : List ExecRecord × SecretsCache × Except String Unit :=
  match findAssoc env.workflows body.workflow_id with
  | none => (store, cache, .error ("Workflow " ++ body.workflow_id ++ " not found"))
  | some workflow =>
    if workflow.enabled.getD true = false then
      (store, cache, .error ("Workflow " ++ body.workflow_id ++ " is disabled"))
    else
      let execution_id := env.executionId
      let store1 := create_execution store body.workflow_id execution_id body.trigger_type
        body.trigger_data (workflow.name.getD "Unknown") env.now env.ttl
      let rs := resolve_secrets env.fetchSecrets env.nowEpoch cache
      let secrets := rs.1
      let cache1 := rs.2.1
      let sfn_input : SfnInput :=
        { execution_id := execution_id
          workflow_id := body.workflow_id
          workflow := workflow
          trigger_data := body.trigger_data
          secrets := secrets }
      let store2 := update_execution_status store1 body.workflow_id execution_id "running"
        none env.now
      match env.sfn sfn_input with
      | .error e =>
          (update_execution_status store2 body.workflow_id execution_id "failed" (some e)
            env.now, cache1, .error e)
      | .ok resp =>
        let workflow_steps := workflow.steps
        if resp.status = some "SUCCEEDED" then
          match parse_step_results resp.output workflow_steps none none with
          | .error e =>
              (update_execution_status store2 body.workflow_id execution_id "failed" (some e)
                env.now, cache1, .error e)
          | .ok steps =>
              (update_execution_with_results store2 body.workflow_id execution_id "success"
                steps none env.now, cache1, .ok ())
        else
          let error_msg := resp.error.getD "Unknown error"
          let cause := resp.cause.getD ""
          let full_error := if cause ≠ "" then error_msg ++ ": " ++ cause else error_msg
          let fsiE : Except String (Option Value) :=
            match resp.output with
            | some (.ok (.dict fields)) =>
                match findAssoc fields "step_index" with
                | some Value.null => .ok none
                | some v => .ok (some v)
                | none => .ok none
            | some (.ok _) => .error "AttributeError: object has no attribute get"
            | _ => .ok none
          match fsiE with
          | .error e =>
              (update_execution_status store2 body.workflow_id execution_id "failed" (some e)
                env.now, cache1, .error e)
          | .ok failed_step_index =>
            match parse_step_results resp.output workflow_steps failed_step_index
                (some full_error) with
            | .error e =>
                (update_execution_status store2 body.workflow_id execution_id "failed" (some e)
                  env.now, cache1, .error e)
            | .ok steps =>
                (update_execution_with_results store2 body.workflow_id execution_id "failed"
                  steps (some full_error) env.now, cache1, .ok ())

end Starter

/-! ## Helper lemmas -/

/-- A disabled workflow is skipped by the poll handler before any polling,
so the system state is unchanged. -/
theorem pollerStep_of_disabled (s : Poller.PollerSys) (o : Poller.PollOutcome)
    (h : s.enabled = false) : Poller.pollerStep s o = s := by
  simp [Poller.pollerStep, h]

/-- After four consecutive failures the workflow is disabled. -/
theorem runFailures_four_disabled (err : String) :
    (Poller.runFailures err 4).enabled = false := by
  simp [Poller.runFailures, Poller.pollerStep, Poller.handle_failure,
    Poller.MAX_CONSECUTIVE_FAILURES]

/-- Lookup distributes over append, trying the left list first. -/
theorem findAssoc_append {α : Type} (r l : List (String × α)) (m : String) :
    findAssoc (r ++ l) m = match findAssoc r m with
      | some v => some v
      | none => findAssoc l m := by
  induction r with
  | nil => rfl
  | cons p rest ih =>
      obtain ⟨k, v⟩ := p
      by_cases hk : k = m <;> simp [findAssoc, hk, ih]

/-- Unfolding of the in-place update on a cons cell. -/
theorem mapAtKey_cons (n : String) (f : Eb.EbRule → Eb.EbRule) (k : String) (v : Eb.EbRule)
    (rest : Eb.Registry) :
    Eb.mapAtKey n f ((k, v) :: rest)
      = (if k = n then (n, f v) else (k, v)) :: Eb.mapAtKey n f rest := rfl

/-- Unfolding of lookup on a cons cell. -/
theorem findAssoc_cons {α : Type} (k : String) (v : α) (rest : List (String × α))
    (m : String) :
    findAssoc ((k, v) :: rest) m = if k = m then some v else findAssoc rest m := rfl

/-- Updating a named rule in place changes that name's binding pointwise. -/
theorem findAssoc_mapAtKey_self (n : String) (f : Eb.EbRule → Eb.EbRule) (r : Eb.Registry) :
    findAssoc (Eb.mapAtKey n f r) n = (findAssoc r n).map f := by
  induction r with
  | nil => rfl
  | cons p rest ih =>
      obtain ⟨k, v⟩ := p
      rw [mapAtKey_cons]
      by_cases hk : k = n
      · subst hk
        rw [if_pos rfl, findAssoc_cons, findAssoc_cons, if_pos rfl, if_pos rfl]
        rfl
      · rw [if_neg hk, findAssoc_cons, findAssoc_cons, if_neg hk, if_neg hk, ih]

/-- Updating a named rule in place leaves other names' bindings alone. -/
theorem findAssoc_mapAtKey_ne (n m : String) (hm : m ≠ n) (f : Eb.EbRule → Eb.EbRule)
    (r : Eb.Registry) : findAssoc (Eb.mapAtKey n f r) m = findAssoc r m := by
  induction r with
  | nil => rfl
  | cons p rest ih =>
      obtain ⟨k, v⟩ := p
      rw [mapAtKey_cons]
      by_cases hk : k = n
      · subst hk
        have hnm : ¬(k = m) := fun he => hm he.symm
        rw [if_pos rfl, findAssoc_cons, findAssoc_cons, if_neg hnm, if_neg hnm, ih]
      · by_cases hkm : k = m
        · subst hkm
          rw [if_neg hk, findAssoc_cons, findAssoc_cons, if_pos rfl, if_pos rfl]
        · rw [if_neg hk, findAssoc_cons, findAssoc_cons, if_neg hkm, if_neg hkm, ih]

/-- Deleting a rule by name removes every binding of that name. -/
theorem findAssoc_filterKey_self (n : String) (r : Eb.Registry) :
    findAssoc (r.filter (fun p => p.1 != n)) n = none := by
  induction r with
  | nil => rfl
  | cons p rest ih =>
      obtain ⟨k, v⟩ := p
      rw [List.filter_cons]
      by_cases hk : k = n
      · subst hk
        simp [ih]
      · have hb : (((k, v).1 != n) = true) := by simpa using hk
        rw [if_pos hb, findAssoc_cons, if_neg hk, ih]

/-- Deleting a rule by name leaves other names' bindings alone. -/
theorem findAssoc_filterKey_ne (n m : String) (hm : m ≠ n) (r : Eb.Registry) :
    findAssoc (r.filter (fun p => p.1 != n)) m = findAssoc r m := by
  induction r with
  | nil => rfl
  | cons p rest ih =>
      obtain ⟨k, v⟩ := p
      rw [List.filter_cons]
      by_cases hk : k = n
      · subst hk
        have hnm : ¬(k = m) := fun he => hm he.symm
        have hb : (((k, v).1 != k) = false) := by simp
        rw [hb]
        simp only [Bool.false_eq_true, if_false]
        rw [ih, findAssoc_cons, if_neg hnm]
      · have hb : (((k, v).1 != n) = true) := by simpa using hk
        rw [if_pos hb, findAssoc_cons, findAssoc_cons, ih]

/-- Updating an absent name is a no-op. -/
theorem mapAtKey_of_not_mem (n : String) (f : Eb.EbRule → Eb.EbRule) (r : Eb.Registry)
    (h : findAssoc r n = none) : Eb.mapAtKey n f r = r := by
  induction r with
  | nil => rfl
  | cons p rest ih =>
      obtain ⟨k, v⟩ := p
      by_cases hk : k = n
      · subst hk; simp [findAssoc] at h
      · simp [findAssoc, hk] at h
        simp [Eb.mapAtKey, hk] at ih ⊢
        simpa [Eb.mapAtKey] using ih h

/-- Updating the single freshly appended binding. -/
theorem mapAtKey_append_single (n : String) (f : Eb.EbRule → Eb.EbRule) (r : Eb.Registry)
    (v : Eb.EbRule) (h : findAssoc r n = none) :
    Eb.mapAtKey n f (r ++ [(n, v)]) = r ++ [(n, f v)] := by
  have : Eb.mapAtKey n f (r ++ [(n, v)]) =
      Eb.mapAtKey n f r ++ Eb.mapAtKey n f [(n, v)] := by
    simp [Eb.mapAtKey]
  rw [this, mapAtKey_of_not_mem n f r h]
  simp [Eb.mapAtKey]

/-- A name with no binding is counted zero times. -/
theorem countKey_eq_zero (n : String) (r : Eb.Registry) (h : findAssoc r n = none) :
    Eb.countKey r n = 0 := by
  induction r with
  | nil => rfl
  | cons p rest ih =>
      obtain ⟨k, v⟩ := p
      by_cases hk : k = n
      · subst hk; simp [findAssoc] at h
      · simp [findAssoc, hk] at h
        simp [Eb.countKey, hk, ih h]

/-- Counting distributes over append. -/
theorem countKey_append (r l : Eb.Registry) (n : String) :
    Eb.countKey (r ++ l) n = Eb.countKey r n + Eb.countKey l n := by
  induction r with
  | nil => simp [Eb.countKey]
  | cons p rest ih =>
      obtain ⟨k, v⟩ := p
      simp [Eb.countKey, ih]
      omega

/-- Unfolding of the duplicate count on a cons cell. -/
theorem countKey_cons (k : String) (v : Eb.EbRule) (rest : Eb.Registry) (n : String) :
    Eb.countKey ((k, v) :: rest) n = (if k = n then 1 else 0) + Eb.countKey rest n := rfl

/-- In-place updates preserve every name's count. -/
theorem countKey_mapAtKey (n m : String) (f : Eb.EbRule → Eb.EbRule) (r : Eb.Registry) :
    Eb.countKey (Eb.mapAtKey n f r) m = Eb.countKey r m := by
  induction r with
  | nil => rfl
  | cons p rest ih =>
      obtain ⟨k, v⟩ := p
      rw [mapAtKey_cons]
      by_cases hk : k = n
      · subst hk
        rw [if_pos rfl, countKey_cons, countKey_cons, ih]
      · rw [if_neg hk, countKey_cons, countKey_cons, ih]

/-- The cron and poll rule names of one workflow never collide (their
suffixes have different lengths). -/
theorem rule_names_ne (cfg : Eb.EbConfig) (wid : String) :
    Eb.get_rule_name cfg wid ≠ Eb.get_poll_rule_name cfg wid := by
  intro h
  have hlen := congrArg String.length h
  simp [Eb.get_rule_name, Eb.get_poll_rule_name, String.length_append] at hlen
  exact absurd hlen (by decide)

/-- In-place updates preserve the presence of the updated name. -/
theorem hasRule_mapAtKey_self (n : String) (f : Eb.EbRule → Eb.EbRule) (r : Eb.Registry) :
    Eb.hasRule (Eb.mapAtKey n f r) n = Eb.hasRule r n := by
  simp [Eb.hasRule, findAssoc_mapAtKey_self]

/-- An absent rule looks up to `none`. -/
theorem findAssoc_eq_none_of_not_hasRule (r : Eb.Registry) (n : String)
    (h : ¬ Eb.hasRule r n = true) : findAssoc r n = none := by
  cases hf : findAssoc r n with
  | none => rfl
  | some v => exact absurd (by simp [Eb.hasRule, hf]) h

/-- `put_rule` leaves a rule of the requested name in place. -/
theorem put_rule_isSome (n expr : String) (en : Bool) (r : Eb.Registry) :
    (findAssoc (Eb.put_rule n expr en r) n).isSome = true := by
  simp only [Eb.put_rule]
  split
  · rw [findAssoc_mapAtKey_self]
    rename_i hh
    simp only [Eb.hasRule] at hh
    simpa using hh
  · rename_i hh
    rw [findAssoc_append, findAssoc_eq_none_of_not_hasRule r _ hh]
    simp [findAssoc]

/-- `put_rule` touches no other name. -/
theorem put_rule_ne (n expr : String) (en : Bool) (r : Eb.Registry) (m : String)
    (hm : m ≠ n) : findAssoc (Eb.put_rule n expr en r) m = findAssoc r m := by
  simp only [Eb.put_rule]
  split
  · exact findAssoc_mapAtKey_ne _ _ hm _ _
  · rw [findAssoc_append]
    cases hf : findAssoc r m with
    | some v => rfl
    | none =>
        rw [findAssoc_cons, if_neg (fun h => hm h.symm)]
        rfl

/-- `put_targets` succeeds on an existing rule, keeps it present and
touches no other name. -/
theorem put_targets_spec (n tid arn : String) (r : Eb.Registry)
    (h : (findAssoc r n).isSome = true) :
    ∃ r2, Eb.put_targets n tid arn r = .ok r2 ∧
      (findAssoc r2 n).isSome = true ∧
      (∀ m, m ≠ n → findAssoc r2 m = findAssoc r m) := by
  have hhas : Eb.hasRule r n = true := by simpa [Eb.hasRule] using h
  refine ⟨Eb.mapAtKey n
    (fun rule => { rule with targets := Eb.upsertTarget tid arn rule.targets }) r,
    ?_, ?_, ?_⟩
  · simp only [Eb.put_targets, hhas, if_true]
  · rw [findAssoc_mapAtKey_self]
    simpa using h
  · intro m hm
    exact findAssoc_mapAtKey_ne _ _ hm _ _

/-- `delete_schedule_rule` never raises; afterwards the cron rule is gone
and every other rule is untouched. -/
theorem delete_schedule_rule_spec (cfg : Eb.EbConfig) (wid : String) (r : Eb.Registry) :
    ∃ r2, Eb.delete_schedule_rule cfg wid r = .ok r2 ∧
      findAssoc r2 (Eb.get_rule_name cfg wid) = none ∧
      (∀ m, m ≠ Eb.get_rule_name cfg wid → findAssoc r2 m = findAssoc r m) := by
  by_cases hh : Eb.hasRule r (Eb.get_rule_name cfg wid) = true
  · refine ⟨(Eb.mapAtKey (Eb.get_rule_name cfg wid)
      (fun rule => { rule with targets := rule.targets.filter (fun t => t.1 != "cron-handler") })
      r).filter (fun p => p.1 != Eb.get_rule_name cfg wid), ?_, ?_, ?_⟩
    · simp only [Eb.delete_schedule_rule, Eb.remove_targets, Eb.delete_rule, hh, if_true,
        hasRule_mapAtKey_self]
    · exact findAssoc_filterKey_self _ _
    · intro m hm
      rw [findAssoc_filterKey_ne _ _ hm, findAssoc_mapAtKey_ne _ _ hm]
  · refine ⟨r, ?_, findAssoc_eq_none_of_not_hasRule r _ hh, fun m _ => rfl⟩
    simp only [Eb.delete_schedule_rule, Eb.remove_targets]
    rw [if_neg hh]

/-- `delete_poll_rule` never raises; afterwards the poll rule is gone and
every other rule is untouched. -/
theorem delete_poll_rule_spec (cfg : Eb.EbConfig) (wid : String) (r : Eb.Registry) :
    ∃ r2, Eb.delete_poll_rule cfg wid r = .ok r2 ∧
      findAssoc r2 (Eb.get_poll_rule_name cfg wid) = none ∧
      (∀ m, m ≠ Eb.get_poll_rule_name cfg wid → findAssoc r2 m = findAssoc r m) := by
  by_cases hh : Eb.hasRule r (Eb.get_poll_rule_name cfg wid) = true
  · refine ⟨(Eb.mapAtKey (Eb.get_poll_rule_name cfg wid)
      (fun rule => { rule with targets := rule.targets.filter (fun t => t.1 != "poller") })
      r).filter (fun p => p.1 != Eb.get_poll_rule_name cfg wid), ?_, ?_, ?_⟩
    · simp only [Eb.delete_poll_rule, Eb.remove_targets, Eb.delete_rule, hh, if_true,
        hasRule_mapAtKey_self]
    · exact findAssoc_filterKey_self _ _
    · intro m hm
      rw [findAssoc_filterKey_ne _ _ hm, findAssoc_mapAtKey_ne _ _ hm]
  · refine ⟨r, ?_, findAssoc_eq_none_of_not_hasRule r _ hh, fun m _ => rfl⟩
    simp only [Eb.delete_poll_rule, Eb.remove_targets]
    rw [if_neg hh]

/-- With the poller ARN configured, `create_poll_rule` succeeds, leaves a
poll rule in place and touches no other rule. -/
theorem create_poll_rule_spec (cfg : Eb.EbConfig) (wid : String) (interval : Int)
    (r : Eb.Registry) (harn : cfg.pollerArn ≠ "") :
    ∃ r2, Eb.create_poll_rule cfg wid interval r = .ok r2 ∧
      (findAssoc r2 (Eb.get_poll_rule_name cfg wid)).isSome = true ∧
      (∀ m, m ≠ Eb.get_poll_rule_name cfg wid → findAssoc r2 m = findAssoc r m) := by
  have hrw : Eb.create_poll_rule cfg wid interval r =
      Eb.put_targets (Eb.get_poll_rule_name cfg wid) "poller" cfg.pollerArn
        (Eb.put_rule (Eb.get_poll_rule_name cfg wid)
          (if max interval 5 > 1 then "rate(" ++ toString (max interval 5) ++ " minutes)"
           else "rate(1 minute)") true r) := by
    simp only [Eb.create_poll_rule, if_neg harn]
  obtain ⟨r2, he, hs, hne2⟩ := put_targets_spec (Eb.get_poll_rule_name cfg wid) "poller"
    cfg.pollerArn _ (put_rule_isSome _ _ _ r)
  exact ⟨r2, hrw.trans he, hs,
    fun m hm => (hne2 m hm).trans (put_rule_ne _ _ _ r m hm)⟩

/-- Creating a cron rule for a workflow with no existing cron rule appends
exactly one fully populated rule. -/
theorem create_schedule_rule_fresh (cfg : Eb.EbConfig) (wid sched : String)
    (r : Eb.Registry) (harn : ¬ (cfg.cronHandlerArn = ""))
    (hnone : findAssoc r (Eb.get_rule_name cfg wid) = none) :
    Eb.create_schedule_rule cfg wid sched r = .ok (r ++ [(Eb.get_rule_name cfg wid,
      { scheduleExpression := "cron(" ++ sched ++ ")", state := true,
        targets := [("cron-handler", cfg.cronHandlerArn)] })]) := by
  have hhasF : ¬ Eb.hasRule r (Eb.get_rule_name cfg wid) = true := by
    simp [Eb.hasRule, hnone]
  have hput : Eb.put_rule (Eb.get_rule_name cfg wid) ("cron(" ++ sched ++ ")") true r
      = r ++ [(Eb.get_rule_name cfg wid,
          { scheduleExpression := "cron(" ++ sched ++ ")", state := true, targets := [] })] := by
    simp only [Eb.put_rule]
    rw [if_neg hhasF]
  have hhas2 : Eb.hasRule (r ++ [(Eb.get_rule_name cfg wid,
      ({ scheduleExpression := "cron(" ++ sched ++ ")", state := true,
         targets := [] } : Eb.EbRule))]) (Eb.get_rule_name cfg wid) = true := by
    simp [Eb.hasRule, findAssoc_append, hnone, findAssoc]
  simp only [Eb.create_schedule_rule, if_neg harn, hput, Eb.put_targets, hhas2, if_true]
  rw [mapAtKey_append_single _ _ _ _ hnone]
  rfl

/-- Re-creating the same cron rule over its own previous result is a no-op
(the idempotent upsert). -/
theorem create_schedule_rule_again (cfg : Eb.EbConfig) (wid sched : String)
    (r : Eb.Registry) (harn : ¬ (cfg.cronHandlerArn = ""))
    (hnone : findAssoc r (Eb.get_rule_name cfg wid) = none) :
    Eb.create_schedule_rule cfg wid sched (r ++ [(Eb.get_rule_name cfg wid,
      { scheduleExpression := "cron(" ++ sched ++ ")", state := true,
        targets := [("cron-handler", cfg.cronHandlerArn)] })])
    = .ok (r ++ [(Eb.get_rule_name cfg wid,
      { scheduleExpression := "cron(" ++ sched ++ ")", state := true,
        targets := [("cron-handler", cfg.cronHandlerArn)] })]) := by
  have hfind : findAssoc (r ++ [(Eb.get_rule_name cfg wid,
      ({ scheduleExpression := "cron(" ++ sched ++ ")", state := true,
         targets := [("cron-handler", cfg.cronHandlerArn)] } : Eb.EbRule))])
      (Eb.get_rule_name cfg wid) = some
      { scheduleExpression := "cron(" ++ sched ++ ")", state := true,
        targets := [("cron-handler", cfg.cronHandlerArn)] } := by
    rw [findAssoc_append, hnone, findAssoc_cons, if_pos rfl]
  have hhas : Eb.hasRule (r ++ [(Eb.get_rule_name cfg wid,
      ({ scheduleExpression := "cron(" ++ sched ++ ")", state := true,
         targets := [("cron-handler", cfg.cronHandlerArn)] } : Eb.EbRule))])
      (Eb.get_rule_name cfg wid) = true := by
    simp [Eb.hasRule, hfind]
  have hput : Eb.put_rule (Eb.get_rule_name cfg wid) ("cron(" ++ sched ++ ")") true
      (r ++ [(Eb.get_rule_name cfg wid,
        { scheduleExpression := "cron(" ++ sched ++ ")", state := true,
          targets := [("cron-handler", cfg.cronHandlerArn)] })])
      = r ++ [(Eb.get_rule_name cfg wid,
        { scheduleExpression := "cron(" ++ sched ++ ")", state := true,
          targets := [("cron-handler", cfg.cronHandlerArn)] })] := by
    simp only [Eb.put_rule, hhas, if_true]
    rw [mapAtKey_append_single _ _ _ _ hnone]
  simp only [Eb.create_schedule_rule, if_neg harn, hput, Eb.put_targets, hhas, if_true]
  rw [mapAtKey_append_single _ _ _ _ hnone]
  rfl

/-- Deleting an absent poll rule is a no-op: the `ResourceNotFoundException`
from `remove_targets` is swallowed and the registry is returned unchanged. -/
theorem delete_poll_rule_absent (cfg : Eb.EbConfig) (wid : String) (r : Eb.Registry)
    (h : findAssoc r (Eb.get_poll_rule_name cfg wid) = none) :
    Eb.delete_poll_rule cfg wid r = .ok r := by
  have hh : ¬ Eb.hasRule r (Eb.get_poll_rule_name cfg wid) = true := by
    simp [Eb.hasRule, h]
  simp only [Eb.delete_poll_rule, Eb.remove_targets]
  rw [if_neg hh]

/-- Reduction of the `Except` bind on a success value. -/
theorem except_bind_ok {α β : Type} (a : α) (f : α → Except String β) :
    Bind.bind (Except.ok a : Except String α) f = f a := rfl

/-- Every error raised during the path walk carries the full offending
path. -/
theorem resolveLoop_error_path (path : String) (parts : List String) :
    ∀ (cur : Value) (e : Interp.IErr),
      Interp.resolveLoop path cur parts = .error e → e.path = path := by
  induction parts with
  | nil =>
      intro cur e h
      simp [Interp.resolveLoop] at h
  | cons part rest ih =>
      intro cur e h
      rcases hsp : Interp.splitIndexPart part with _ | ⟨key, index⟩ <;>
        rcases cur with _ | b | n | s | xs | fields <;>
        simp only [Interp.resolveLoop, hsp] at h
      case none.null =>
        injection h with h1; subst h1; rfl
      case none.bool =>
        injection h with h1; subst h1; rfl
      case none.int =>
        injection h with h1; subst h1; rfl
      case none.str =>
        injection h with h1; subst h1; rfl
      case none.list =>
        injection h with h1; subst h1; rfl
      case none.dict =>
        cases hf : findAssoc fields part with
        | none => rw [hf] at h; injection h with h1; subst h1; rfl
        | some w => rw [hf] at h; exact ih w e h
      case some.mk.null =>
        injection h with h1; subst h1; rfl
      case some.mk.bool =>
        injection h with h1; subst h1; rfl
      case some.mk.int =>
        injection h with h1; subst h1; rfl
      case some.mk.str =>
        injection h with h1; subst h1; rfl
      case some.mk.list =>
        injection h with h1; subst h1; rfl
      case some.mk.dict =>
        cases hf : findAssoc fields key with
        | none => rw [hf] at h; injection h with h1; subst h1; rfl
        | some arr =>
          rw [hf] at h
          rcases arr with _ | b2 | n2 | s2 | ys | gs <;>
            simp only at h
          case list =>
            cases hg : ys.get? index with
            | none => rw [hg] at h; injection h with h1; subst h1; rfl
            | some w => rw [hg] at h; exact ih w e h
          all_goals (injection h with h1; subst h1; rfl)

/-- A single path segment resolves successfully only through the exact
shapes the code accepts: a dict containing the plain key, or (for an
indexed segment) a dict whose value at the key is a list long enough. -/
theorem resolveLoop_single_ok (path part : String) (cur v : Value)
    (h : Interp.resolveLoop path cur [part] = .ok v) :
    ∃ fields, cur = Value.dict fields ∧
      ((Interp.splitIndexPart part = none ∧ findAssoc fields part = some v) ∨
       (∃ key index xs, Interp.splitIndexPart part = some (key, index) ∧
          findAssoc fields key = some (Value.list xs) ∧ xs.get? index = some v)) := by
  rcases hsp : Interp.splitIndexPart part with _ | ⟨key, index⟩ <;>
    rcases cur with _ | b | n | s | xs | fields <;>
    simp only [Interp.resolveLoop, hsp] at h <;>
    try exact Except.noConfusion h
  case none.dict =>
    cases hf : findAssoc fields part with
    | none => rw [hf] at h; cases h
    | some w =>
        rw [hf] at h
        simp only [Interp.resolveLoop] at h
        injection h with h1
        exact ⟨fields, rfl, Or.inl ⟨rfl, h1 ▸ hf⟩⟩
  case some.mk.dict =>
    cases hf : findAssoc fields key with
    | none => rw [hf] at h; cases h
    | some arr =>
      rw [hf] at h
      rcases arr with _ | b2 | n2 | s2 | ys | gs <;> simp only at h <;> try cases h
      case list =>
        cases hg : ys.get? index with
        | none => rw [hg] at h; cases h
        | some w =>
            rw [hg] at h
            simp only [Interp.resolveLoop] at h
            injection h with h1
            exact ⟨fields, rfl, Or.inr ⟨key, index, ys, rfl, hf, h1 ▸ hg⟩⟩

/-- Reduction of the `Except` bind on an error value. -/
theorem except_bind_error {α β : Type} (e : String) (f : α → Except String β) :
    Bind.bind (Except.error e : Except String α) f = Except.error e := rfl

/-- A successful `buildSteps` run produces one result per step definition,
each obtained from `buildStep` at its absolute index. -/
theorem buildSteps_ok_spec (ctx : Value) (fsi : Option Value) (em : Option String) :
    ∀ (k : Nat) (sds : List Starter.StepDef) (rs : List Starter.StepResult),
      Starter.buildSteps ctx fsi em k sds = .ok rs →
      rs.length = sds.length ∧
      (∀ i sd, sds.get? i = some sd → ∃ sr, rs.get? i = some sr ∧
        Starter.buildStep ctx fsi em (k + i) sd = .ok sr) := by
  intro k sds
  induction sds generalizing k with
  | nil =>
      intro rs h
      simp only [Starter.buildSteps] at h
      injection h with h
      subst h
      exact ⟨rfl, fun i sd hi => by simp at hi⟩
  | cons sd rest ih =>
      intro rs h
      simp only [Starter.buildSteps] at h
      cases hb : Starter.buildStep ctx fsi em k sd with
      | error e =>
          rw [hb, except_bind_error] at h
          exact Except.noConfusion h
      | ok r =>
          rw [hb, except_bind_ok] at h
          cases hbs : Starter.buildSteps ctx fsi em (k + 1) rest with
          | error e =>
              rw [hbs, except_bind_error] at h
              exact Except.noConfusion h
          | ok rs2 =>
              rw [hbs, except_bind_ok] at h
              injection h with h
              subst h
              obtain ⟨hlen, hget⟩ := ih (k + 1) rs2 hbs
              refine ⟨by simp [hlen], ?_⟩
              intro i sd2 hi
              cases i with
              | zero =>
                  simp only [List.get?] at hi
                  injection hi with hi
                  subst hi
                  exact ⟨r, rfl, by simpa using hb⟩
              | succ n =>
                  simp only [List.get?] at hi
                  obtain ⟨sr, hrs, hb2⟩ := hget n sd2 hi
                  refine ⟨sr, by simpa using hrs, ?_⟩
                  rw [show k + (n + 1) = k + 1 + n by omega]
                  exact hb2

/-- Fields of a successful `buildStep`: the step id and name come from the
workflow's step definition (the array is in workflow order). -/
theorem buildStep_ok_ids (ctx : Value) (fsi : Option Value) (em : Option String)
    (idx : Nat) (sd : Starter.StepDef) (sr : Starter.StepResult)
    (h : Starter.buildStep ctx fsi em idx sd = .ok sr) :
    sr.step_id = Starter.stepIdOf idx sd ∧
    sr.name = sd.name.getD (Starter.stepIdOf idx sd) := by
  rcases fsi with _ | fv <;>
    rcases ctx with _ | b | n | s | xs | cf <;>
    simp only [Starter.buildStep, except_bind_ok, except_bind_error] at h <;>
    try exact Except.noConfusion h
  · cases hsd : (findAssoc cf (Starter.stepIdOf idx sd)).getD (Value.dict []) with
    | dict fs =>
        simp only [hsd, except_bind_ok] at h
        injection h with h
        subst h
        exact ⟨rfl, rfl⟩
    | null => simp only [hsd] at h; exact Except.noConfusion h
    | bool b => simp only [hsd] at h; exact Except.noConfusion h
    | int n => simp only [hsd] at h; exact Except.noConfusion h
    | str s => simp only [hsd] at h; exact Except.noConfusion h
    | list xs => simp only [hsd] at h; exact Except.noConfusion h
  · cases hnum : Starter.asPyNumber fv with
    | none => simp only [hnum] at h; exact Except.noConfusion h
    | some f =>
        simp only [hnum] at h
        cases hsd : (findAssoc cf (Starter.stepIdOf idx sd)).getD (Value.dict []) with
        | dict fs =>
            rw [hsd] at h
            simp only [except_bind_ok] at h
            injection h with h
            subst h
            exact ⟨rfl, rfl⟩
        | null => simp only [hsd] at h; exact Except.noConfusion h
        | bool b => simp only [hsd] at h; exact Except.noConfusion h
        | int n => simp only [hsd] at h; exact Except.noConfusion h
        | str s => simp only [hsd] at h; exact Except.noConfusion h
        | list xs => simp only [hsd] at h; exact Except.noConfusion h

/-- Status and error of a successful `buildStep` when an integer failing
index is supplied: classification is by position relative to the index,
and the failing step carries the composed error message. -/
theorem buildStep_ok_failed_mode (ctx : Value) (em : Option String) (idx : Nat) (k : Int)
    (sd : Starter.StepDef) (sr : Starter.StepResult)
    (h : Starter.buildStep ctx (some (Value.int k)) em idx sd = .ok sr) :
    sr.status = (if (idx : Int) < k then "success"
                 else if (idx : Int) = k then "failed" else "skipped") ∧
    ((idx : Int) = k → sr.error = Starter.errorValue em) := by
  rcases ctx with _ | b | n | s | xs | cf <;>
    simp only [Starter.buildStep, except_bind_ok, except_bind_error] at h <;>
    try exact Except.noConfusion h
  simp only [Starter.asPyNumber, except_bind_ok] at h
  cases hsd : (findAssoc cf (Starter.stepIdOf idx sd)).getD (Value.dict []) with
  | dict fs =>
      simp only [hsd, except_bind_ok] at h
      injection h with h
      subst h
      constructor
      · rfl
      · intro hik
        simp [hik]
  | null => simp only [hsd] at h; exact Except.noConfusion h
  | bool b => simp only [hsd] at h; exact Except.noConfusion h
  | int n => simp only [hsd] at h; exact Except.noConfusion h
  | str s => simp only [hsd] at h; exact Except.noConfusion h
  | list xs => simp only [hsd] at h; exact Except.noConfusion h

/-- Status of a successful `buildStep` when no failing index is supplied:
a step succeeds iff its step id appears among the orchestrator's reported
steps, and is skipped otherwise. -/
theorem buildStep_ok_success_mode (ctx : Value) (em : Option String) (idx : Nat)
    (sd : Starter.StepDef) (sr : Starter.StepResult)
    (h : Starter.buildStep ctx none em idx sd = .ok sr) :
    ∀ cf, ctx = Value.dict cf →
      sr.status = (if hasKey cf (Starter.stepIdOf idx sd) then "success" else "skipped") := by
  intro cf hcf
  subst hcf
  simp only [Starter.buildStep, except_bind_ok] at h
  cases hsd : (findAssoc cf (Starter.stepIdOf idx sd)).getD (Value.dict []) with
  | dict fs =>
      simp only [hsd, except_bind_ok] at h
      injection h with h
      subst h
      rfl
  | null => simp only [hsd] at h; exact Except.noConfusion h
  | bool b => simp only [hsd] at h; exact Except.noConfusion h
  | int n => simp only [hsd] at h; exact Except.noConfusion h
  | str s => simp only [hsd] at h; exact Except.noConfusion h
  | list xs => simp only [hsd] at h; exact Except.noConfusion h

/-! ## Claims -/

/-- C2: In the poll failure-handling step relation, starting from
`consecutive_failures = 0`, each failed poll increments the counter by
exactly 1 (0→1→2→3→4), the disable side-effects (workflow disabled,
schedule rule disabled, notification sent) fire exactly once, on the
failure that makes the counter reach 4 and never earlier (and never again:
the trajectory is constant from the 4th failure on), and a successful poll
from any enabled state resets `consecutive_failures` to 0 and clears
`last_error`. -/
theorem C2_auto_disable_policy :
    (∀ (err : String) (i : Nat), i ≤ 4 →
      (Poller.runFailures err i).consecutive_failures = i ∧
      (Poller.runFailures err i).enabled = decide (i < 4) ∧
      (Poller.runFailures err i).ruleEnabled = decide (i < 4) ∧
      (Poller.runFailures err i).notificationsSent = (if i = 4 then 1 else 0)) ∧
    (∀ (err : String) (n : Nat), 4 ≤ n →
      Poller.runFailures err n = Poller.runFailures err 4) ∧
    (∀ s : Poller.PollerSys, s.enabled = true →
      Poller.pollerStep s Poller.PollOutcome.succeeded
        = { s with consecutive_failures := 0, last_error := none }) := by
  refine ⟨?_, ?_, ?_⟩
  · intro err i hi
    interval_cases i <;>
      simp [Poller.runFailures, Poller.pollerStep, Poller.handle_failure,
        Poller.MAX_CONSECUTIVE_FAILURES]
  · intro err n hn
    obtain ⟨k, rfl⟩ := Nat.exists_eq_add_of_le hn
    clear hn
    induction k with
    | zero => rfl
    | succ k ih =>
        have h4 : (Poller.runFailures err (4 + k)).enabled = false := by
          rw [ih]; exact runFailures_four_disabled err
        show Poller.pollerStep (Poller.runFailures err (4 + k)) _ = _
        rw [pollerStep_of_disabled _ _ h4, ih]
  · intro s hs
    simp [Poller.pollerStep, hs]

/-- Witness for C2 at concrete inputs. -/
theorem C2_auto_disable_policy_witness :
    (Poller.runFailures "boom" 3).notificationsSent = 0 ∧
    (Poller.runFailures "boom" 3).enabled = true ∧
    (Poller.runFailures "boom" 4).notificationsSent = 1 ∧
    (Poller.runFailures "boom" 4).consecutive_failures = 4 ∧
    Poller.runFailures "boom" 7 = Poller.runFailures "boom" 4 ∧
    Poller.pollerStep ⟨true, true, 2, some "e", 0⟩ Poller.PollOutcome.succeeded
      = ⟨true, true, 0, none, 0⟩ := by
  obtain ⟨h1, h2, h3⟩ := C2_auto_disable_policy
  refine ⟨?_, ?_, ?_, ?_, ?_, ?_⟩
  · simpa using (h1 "boom" 3 (by decide)).2.2.2
  · simpa using (h1 "boom" 3 (by decide)).2.1
  · simpa using (h1 "boom" 4 (by decide)).2.2.2
  · exact (h1 "boom" 4 (by decide)).1
  · exact h2 "boom" 7 (by decide)
  · exact h3 ⟨true, true, 2, some "e", 0⟩ rfl

/-- C4: For every HTTP-policy poll, the stored digest is always replaced by
the current digest; with no prior digest the poll reports no execution;
with a prior digest an execution is reported iff the current digest differs
from the stored one. -/
theorem C4_http_change_detection (hashFn : String → String) (content : String)
    (st : Poller.PollState) (now : String) :
    ((Poller.poll_http hashFn content st now).2.last_content_hash = hashFn content) ∧
    (st.last_content_hash = none → (Poller.poll_http hashFn content st now).1 = none) ∧
    (∀ d, st.last_content_hash = some d →
      (((Poller.poll_http hashFn content st now).1).isSome ↔ hashFn content ≠ d)) := by
  refine ⟨?_, ?_, ?_⟩
  · simp only [Poller.poll_http, Poller.check_http_changed]
    split <;> rfl
  · intro h
    simp [Poller.poll_http, Poller.check_http_changed, h]
  · intro d hd
    simp only [Poller.poll_http, Poller.check_http_changed, hd]
    by_cases hne : hashFn content = d <;> simp [hne]

/-- Witness for C4 at concrete inputs. -/
theorem C4_http_change_detection_witness :
    (Poller.poll_http (fun s => s) "body" ⟨[], none, 0, none⟩ "t").1 = none ∧
    ((Poller.poll_http (fun s => s) "body" ⟨[], some "old", 0, none⟩ "t").1.isSome ↔
      "body" ≠ "old") ∧
    (Poller.poll_http (fun s => s) "body" ⟨[], some "old", 0, none⟩ "t").2.last_content_hash
      = "body" := by
  refine ⟨?_, ?_, ?_⟩
  · exact (C4_http_change_detection (fun s => s) "body" ⟨[], none, 0, none⟩ "t").2.1 rfl
  · exact (C4_http_change_detection (fun s => s) "body" ⟨[], some "old", 0, none⟩ "t").2.2
      "old" rfl
  · exact (C4_http_change_detection (fun s => s) "body" ⟨[], some "old", 0, none⟩ "t").1

/-- C9: On every successful feed poll the updated seen-id list is exactly
the old list with the identity of every observed item appended and then
truncated to the last 500 entries — with no deduplication against entries
already present, so an unchanged feed grows the list by the full observed
item count each poll (length = min(old + observed, 500)); the concrete
instance shows an identity already present being appended again. -/
theorem C9_seen_ids_append_no_dedup :
    (∀ (items : List Poller.FeedItem) (st : Poller.PollState) (now : String),
      (Poller.poll_feed items st now).2.seen_item_ids =
        (st.seen_item_ids ++ items.map (·.guid)).drop
          (st.seen_item_ids.length + items.length - Poller.MAX_SEEN_ITEMS) ∧
      (Poller.poll_feed items st now).2.seen_item_ids.length =
        min (st.seen_item_ids.length + items.length) Poller.MAX_SEEN_ITEMS) ∧
    (Poller.poll_feed [⟨"t", "l", "g1", "p", "s"⟩]
        ⟨["g1"], none, 0, none⟩ "now").2.seen_item_ids = ["g1", "g1"] := by
  constructor
  · intro items st now
    have hlen : (st.seen_item_ids ++ items.map (·.guid)).length =
        st.seen_item_ids.length + items.length := by
      simp
    constructor
    · simp only [Poller.poll_feed, Poller.prune_seen_ids]
      split
      · rw [hlen]
      · rename_i hle
        rw [hlen] at hle
        have : st.seen_item_ids.length + items.length - Poller.MAX_SEEN_ITEMS = 0 := by
          omega
        rw [this, List.drop_zero]
    · simp only [Poller.poll_feed, Poller.prune_seen_ids]
      split
      · rename_i hgt
        rw [List.length_drop, hlen]
        rw [hlen] at hgt
        omega
      · rename_i hle
        rw [hlen]
        rw [hlen] at hle
        omega
  · rfl

/-- C10: The secrets cache is fresh only when non-empty and younger than
the 5-minute TTL; a stale or empty cache always triggers a fetch; a fetch
failure returns an empty secret set without raising and leaves the cached
values and timestamp unchanged; after a fetch that returned zero secrets
(or failed), every subsequent call re-fetches (for the failure case, at any
later time). -/
theorem C10_secrets_cache_policy :
    (∀ (fetch : Except String (List (String × String))) (now : Nat)
       (c : Starter.SecretsCache),
      (Starter.resolve_secrets fetch now c).2.2 = false ↔
        (c.values ≠ [] ∧ now - c.fetchedAt < Starter.SECRETS_CACHE_TTL)) ∧
    (∀ fetch now c, (Starter.resolve_secrets fetch now c).2.2 = false →
      Starter.resolve_secrets fetch now c = (c.values, c, false)) ∧
    (∀ (e : String) now c,
      ¬(c.values ≠ [] ∧ now - c.fetchedAt < Starter.SECRETS_CACHE_TTL) →
      Starter.resolve_secrets (.error e) now c = ([], c, true)) ∧
    (∀ fetch now c, c.values = [] → (Starter.resolve_secrets fetch now c).2.2 = true) ∧
    (∀ now c (fetch2 : Except String (List (String × String))) (now2 : Nat),
      ¬(c.values ≠ [] ∧ now - c.fetchedAt < Starter.SECRETS_CACHE_TTL) →
      (Starter.resolve_secrets fetch2 now2
        ((Starter.resolve_secrets (.ok []) now c).2.1)).2.2 = true) ∧
    (∀ (e : String) now c (fetch2 : Except String (List (String × String))) (now2 : Nat),
      ¬(c.values ≠ [] ∧ now - c.fetchedAt < Starter.SECRETS_CACHE_TTL) → now ≤ now2 →
      (Starter.resolve_secrets fetch2 now2
        ((Starter.resolve_secrets (.error e) now c).2.1)).2.2 = true) := by
  refine ⟨?_, ?_, ?_, ?_, ?_, ?_⟩
  · intro fetch now c
    simp only [Starter.resolve_secrets]
    split
    · simpa
    · rename_i hcond
      cases fetch <;> simpa using hcond
  · intro fetch now c h
    by_cases hc : c.values ≠ [] ∧ now - c.fetchedAt < Starter.SECRETS_CACHE_TTL
    · simp [Starter.resolve_secrets, hc]
    · exfalso
      simp only [Starter.resolve_secrets, if_neg hc] at h
      cases fetch <;> simp at h
  · intro e now c h
    simp [Starter.resolve_secrets, h]
  · intro fetch now c h
    simp only [Starter.resolve_secrets, h]
    have : ¬(([] : List (String × String)) ≠ [] ∧
        now - c.fetchedAt < Starter.SECRETS_CACHE_TTL) := by simp
    rw [if_neg this]
    cases fetch <;> rfl
  · intro now c fetch2 now2 h
    simp only [Starter.resolve_secrets, if_neg h]
    have : ¬(([] : List (String × String)) ≠ [] ∧
        now2 - now < Starter.SECRETS_CACHE_TTL) := by simp
    rw [if_neg this]
    cases fetch2 <;> rfl
  · intro e now c fetch2 now2 h hle
    simp only [Starter.resolve_secrets, if_neg h]
    have hcond : ¬(c.values ≠ [] ∧ now2 - c.fetchedAt < Starter.SECRETS_CACHE_TTL) := by
      rcases (not_and_or.mp h) with hv | ht
      · exact fun hc => hv hc.1
      · intro hc
        apply ht
        have : now - c.fetchedAt ≤ now2 - c.fetchedAt := Nat.sub_le_sub_right hle _
        omega
    rw [if_neg hcond]
    cases fetch2 <;> rfl

/-- Witness for C10 at concrete inputs. -/
theorem C10_secrets_cache_policy_witness :
    ((Starter.resolve_secrets (.ok [("k", "v")]) 10 ⟨[("a", "b")], 5⟩).2.2 = false ↔
      ((List.cons ("a", "b") []) ≠ [] ∧ 10 - 5 < Starter.SECRETS_CACHE_TTL)) ∧
    Starter.resolve_secrets (.error "down") 1000 ⟨[("a", "b")], 5⟩ = ([], ⟨[("a", "b")], 5⟩, true) ∧
    (Starter.resolve_secrets (.error "down") 7 ⟨[], 5⟩).2.2 = true ∧
    (Starter.resolve_secrets (.ok [("k", "v")]) 8
      ((Starter.resolve_secrets (.ok []) 7 ⟨[], 0⟩).2.1)).2.2 = true ∧
    (Starter.resolve_secrets (.ok [("k", "v")]) 1500
      ((Starter.resolve_secrets (.error "down") 1000 ⟨[("a", "b")], 5⟩).2.1)).2.2 = true := by
  obtain ⟨h1, _, h3, h4, h5, h6⟩ := C10_secrets_cache_policy
  refine ⟨h1 _ 10 ⟨[("a", "b")], 5⟩, ?_, ?_, ?_, ?_⟩
  · exact h3 "down" 1000 ⟨[("a", "b")], 5⟩ (by decide)
  · exact h4 _ 7 ⟨[], 5⟩ rfl
  · exact h5 7 ⟨[], 0⟩ _ 8 (by decide)
  · exact h6 "down" 1000 ⟨[("a", "b")], 5⟩ _ 1500 (by decide) (by decide)

/-- C3: For every successful feed poll, the reported new items are exactly
the observed items whose identity is not in the prior seen list (in feed
order); the updated seen list contains the identity of every observed item
(not only the new ones), never exceeds 500 entries, and truncation discards
entries from the front; and an empty new set yields no execution payload.
The cap hypothesis holds for every real poll because `parse_feed` returns
at most `MAX_FEED_ITEMS = 100` items. -/
theorem C3_feed_change_detection (items : List Poller.FeedItem) (st : Poller.PollState)
    (now : String) (hcap : items.length ≤ Poller.MAX_SEEN_ITEMS) :
    (Poller.poll_feed items st now).1.Sublist items ∧
    (∀ it : Poller.FeedItem, it ∈ (Poller.poll_feed items st now).1 ↔
      it ∈ items ∧ it.guid ∉ st.seen_item_ids) ∧
    (∀ it ∈ items, it.guid ∈ (Poller.poll_feed items st now).2.seen_item_ids) ∧
    (Poller.poll_feed items st now).2.seen_item_ids.length ≤ Poller.MAX_SEEN_ITEMS ∧
    (Poller.poll_feed items st now).2.seen_item_ids.IsSuffix
      (st.seen_item_ids ++ items.map (·.guid)) ∧
    (∀ ct, (Poller.feedTriggerData ct (Poller.poll_feed items st now).1).isSome ↔
      (Poller.poll_feed items st now).1 ≠ []) := by
  have hguid : ∀ it : Poller.FeedItem, it ∈ items →
      it.guid ∈ (Poller.poll_feed items st now).2.seen_item_ids := by
    intro it hit
    have hmem : it.guid ∈ items.map (·.guid) := List.mem_map_of_mem _ hit
    simp only [Poller.poll_feed, Poller.prune_seen_ids]
    split
    · rename_i hgt
      have hlen : (st.seen_item_ids ++ items.map (·.guid)).length =
          st.seen_item_ids.length + items.length := by simp
      have hk : (st.seen_item_ids ++ items.map (·.guid)).length - Poller.MAX_SEEN_ITEMS ≤
          st.seen_item_ids.length := by
        rw [hlen]; omega
      rw [List.drop_append_of_le_length hk]
      exact List.mem_append_right _ hmem
    · exact List.mem_append_right _ hmem
  refine ⟨?_, ?_, hguid, ?_, ?_, ?_⟩
  · exact List.filter_sublist items
  · intro it
    simp only [Poller.poll_feed, Poller.find_new_items, List.mem_filter,
      Bool.not_eq_true', ← List.elem_iff (a := it.guid)]
    constructor
    · rintro ⟨h1, h2⟩
      exact ⟨h1, by simp [List.contains] at h2 ⊢; exact h2⟩
    · rintro ⟨h1, h2⟩
      exact ⟨h1, by simp [List.contains] at h2 ⊢; exact h2⟩
  · simp only [Poller.poll_feed, Poller.prune_seen_ids]
    split
    · rename_i hgt
      rw [List.length_drop]
      omega
    · rename_i hle
      omega
  · simp only [Poller.poll_feed, Poller.prune_seen_ids]
    split
    · exact List.drop_suffix _ _
    · exact List.suffix_refl _
  · intro ct
    simp only [Poller.feedTriggerData]
    split
    · rename_i hemp
      simp_all [List.isEmpty_iff]
    · rename_i hemp
      simp_all [List.isEmpty_iff]

/-- Witness for C3 at concrete inputs. -/
theorem C3_feed_change_detection_witness :
    (⟨"t2", "l2", "g2", "p2", "s2"⟩ : Poller.FeedItem) ∈
      (Poller.poll_feed [⟨"t1", "l1", "g1", "p1", "s1"⟩, ⟨"t2", "l2", "g2", "p2", "s2"⟩]
        ⟨["g1"], none, 0, none⟩ "now").1 ∧
    "g1" ∈ (Poller.poll_feed [⟨"t1", "l1", "g1", "p1", "s1"⟩, ⟨"t2", "l2", "g2", "p2", "s2"⟩]
        ⟨["g1"], none, 0, none⟩ "now").2.seen_item_ids ∧
    "g2" ∈ (Poller.poll_feed [⟨"t1", "l1", "g1", "p1", "s1"⟩, ⟨"t2", "l2", "g2", "p2", "s2"⟩]
        ⟨["g1"], none, 0, none⟩ "now").2.seen_item_ids ∧
    ((Poller.feedTriggerData "rss"
      (Poller.poll_feed ([] : List Poller.FeedItem) ⟨["g1"], none, 0, none⟩ "now").1).isSome ↔
      (Poller.poll_feed ([] : List Poller.FeedItem) ⟨["g1"], none, 0, none⟩ "now").1 ≠ []) := by
  have h2 := C3_feed_change_detection
    [⟨"t1", "l1", "g1", "p1", "s1"⟩, ⟨"t2", "l2", "g2", "p2", "s2"⟩]
    ⟨["g1"], none, 0, none⟩ "now" (by decide)
  have h0 := C3_feed_change_detection ([] : List Poller.FeedItem)
    ⟨["g1"], none, 0, none⟩ "now" (by decide)
  refine ⟨?_, ?_, ?_, h0.2.2.2.2.2 "rss"⟩
  · exact (h2.2.1 ⟨"t2", "l2", "g2", "p2", "s2"⟩).mpr (by decide)
  · exact h2.2.2.1 ⟨"t1", "l1", "g1", "p1", "s1"⟩ (by decide)
  · exact h2.2.2.1 ⟨"t2", "l2", "g2", "p2", "s2"⟩ (by decide)

/-- C5 counterexample: the claim says maps embed as compact JSON with no
extra whitespace, but the code uses `json.dumps` with default separators,
which puts a space after each key's colon (and after each comma): the map
`\x7b"a": 1\x7d` embeds with a space, not as the compact form. -/
theorem C5_counterexample :
    Interp.interpolateSegments [Interp.Segment.placeholder "x" none]
      (Value.dict [("x", Value.dict [("a", Value.int 1)])]) = .ok "\x7b\"a\": 1\x7d" ∧
    "\x7b\"a\": 1\x7d" ≠ "\x7b\"a\":1\x7d" := by
  refine ⟨by rfl, by decide⟩

/-- C5 (amended): string interpolation embeds a resolved non-string value
as: booleans → "true"/"false", null → "", maps/sequences → their
`json.dumps` serialization with Python's default separators (comma-space
between items, colon-space after keys), everything else → its native
string conversion. -/
theorem C5_string_embedding :
    Interp.embedValue Value.null = "" ∧
    (∀ b, Interp.embedValue (Value.bool b) = (if b then "true" else "false")) ∧
    (∀ n : Int, Interp.embedValue (Value.int n) = toString n) ∧
    (∀ s, Interp.embedValue (Value.str s) = s) ∧
    (∀ fs, Interp.embedValue (Value.dict fs) = jsonDumps (Value.dict fs)) ∧
    (∀ xs, Interp.embedValue (Value.list xs) = jsonDumps (Value.list xs)) ∧
    (∀ x y : Value, jsonDumps (Value.list [x, y]) =
      "[" ++ jsonDumps x ++ ", " ++ jsonDumps y ++ "]") ∧
    (∀ (k : String) (x : Value), jsonDumps (Value.dict [(k, x)]) =
      "\x7b" ++ jsonQuote k ++ ": " ++ jsonDumps x ++ "\x7d") ∧
    (∀ (k1 k2 : String) (x1 x2 : Value), jsonDumps (Value.dict [(k1, x1), (k2, x2)]) =
      "\x7b" ++ jsonQuote k1 ++ ": " ++ jsonDumps x1 ++ ", " ++
        jsonQuote k2 ++ ": " ++ jsonDumps x2 ++ "\x7d") ∧
    (∀ (context : Value) (p : String) (v : Value), Interp.resolvePath context p = .ok v →
      Interp.interpolateSegments [Interp.Segment.placeholder p none] context
        = .ok (Interp.embedValue v)) := by
  refine ⟨rfl, fun b => by cases b <;> rfl, fun n => rfl, fun s => rfl,
    fun fs => rfl, fun xs => rfl, ?_, ?_, ?_, ?_⟩
  · intro x y
    simp [jsonDumps, jsonDumpsList, String.append_assoc]
  · intro k x
    simp [jsonDumps, jsonDumpsFields, String.append_assoc]
  · intro k1 k2 x1 x2
    simp [jsonDumps, jsonDumpsFields, String.append_assoc]
  · intro context p v h
    simp only [Interp.interpolateSegments, h]
    show Except.ok (Interp.embedValue v ++ "") = Except.ok (Interp.embedValue v)
    simp

/-- Witness for C5's amended theorem at a concrete input. -/
theorem C5_string_embedding_witness :
    Interp.interpolateSegments [Interp.Segment.placeholder "flag" none]
      (Value.dict [("flag", Value.bool true)]) = .ok "true" := by
  have h := C5_string_embedding.2.2.2.2.2.2.2.2.2
  exact h (Value.dict [("flag", Value.bool true)]) "flag" (Value.bool true) (by rfl)

/-- C6: path resolution fails with an `InterpolationError` carrying the
offending path whenever a segment's key is missing or the current value
has the wrong shape — a segment succeeds only through a dict containing
the key (and, for indexed segments, a list long enough), so there is no
silent default; the `default` filter substitutes its literal only when the
resolved value is null, so resolving a missing key raises even with a
default filter attached, while a null value with `default("z")` yields
"z". -/
theorem C6_no_silent_defaults :
    (∀ (context : Value) (path : String) (e : Interp.IErr),
      Interp.resolvePath context path = .error e → e.path = path) ∧
    (∀ (path part : String) (cur v : Value),
      Interp.resolveLoop path cur [part] = .ok v →
      ∃ fields, cur = Value.dict fields ∧
        ((Interp.splitIndexPart part = none ∧ findAssoc fields part = some v) ∨
         (∃ key index xs, Interp.splitIndexPart part = some (key, index) ∧
            findAssoc fields key = some (Value.list xs) ∧ xs.get? index = some v))) ∧
    (∀ (filterExpr path d : String) (v : Value),
      Interp.parseDefaultFilter (Interp.pyStrip filterExpr) = some d →
      Interp.applyFilter v filterExpr path =
        .ok (match v with | Value.null => Value.str d | w => w)) ∧
    (Interp.interpolateSegments [Interp.Segment.placeholder "a.b" (some "default(\"z\")")]
      (Value.dict [("a", Value.dict [])])
        = .error ⟨"a.b", "Key \x27b\x27 not found"⟩) ∧
    (Interp.interpolateSegments [Interp.Segment.placeholder "m" (some "default(\"z\")")]
      (Value.dict [("m", Value.null)]) = .ok "z") := by
  refine ⟨?_, ?_, ?_, by rfl, by rfl⟩
  · intro context path e h
    exact resolveLoop_error_path path _ context e h
  · exact resolveLoop_single_ok
  · intro filterExpr path d v h
    simp [Interp.applyFilter, h]

/-- Witness for C6 at concrete inputs. -/
theorem C6_no_silent_defaults_witness :
    ((⟨"a.b", "Key \x27b\x27 not found"⟩ : Interp.IErr).path = "a.b") ∧
    (∃ fields, Value.dict [("k", Value.str "v")] = Value.dict fields ∧
      ((Interp.splitIndexPart "k" = none ∧ findAssoc fields "k" = some (Value.str "v")) ∨
       (∃ key index xs, Interp.splitIndexPart "k" = some (key, index) ∧
          findAssoc fields key = some (Value.list xs) ∧ xs.get? index = some (Value.str "v")))) ∧
    Interp.applyFilter (Value.int 7) "default(\"z\")" "p" = .ok (Value.int 7) := by
  refine ⟨?_, ?_, ?_⟩
  · exact C6_no_silent_defaults.1 (Value.dict [("a", Value.dict [])]) "a.b" _ (by rfl)
  · exact C6_no_silent_defaults.2.1 "p" "k" (Value.dict [("k", Value.str "v")])
      (Value.str "v") (by rfl)
  · exact C6_no_silent_defaults.2.2.1 "default(\"z\")" "p" "z" (Value.int 7) (by rfl)

/-- C8: An inbound trigger message whose workflow is absent or disabled
makes `process_record` raise a caller-visible error, and the executions
store (and the secrets cache) is unchanged — no execution record is
created. -/
theorem C8_reject_missing_or_disabled (env : Starter.StarterEnv) (body : Starter.MsgBody)
    (cache : Starter.SecretsCache) (store : List Starter.ExecRecord)
    (h : findAssoc env.workflows body.workflow_id = none ∨
         ∃ wf, findAssoc env.workflows body.workflow_id = some wf ∧
           wf.enabled.getD true = false) :
    ∃ e, Starter.process_record env body cache store = (store, cache, Except.error e) := by
  rcases h with h | ⟨wf, hwf, hen⟩
  · refine ⟨"Workflow " ++ body.workflow_id ++ " not found", ?_⟩
    simp [Starter.process_record, h]
  · refine ⟨"Workflow " ++ body.workflow_id ++ " is disabled", ?_⟩
    simp [Starter.process_record, hwf, hen]

/-- Witness for C8: a message for a missing workflow and one for a disabled
workflow both fail without touching the (empty) executions store. -/
theorem C8_reject_missing_or_disabled_witness :
    (∃ e, Starter.process_record
      ⟨[("w2", ⟨some "W", some false, []⟩)], .ok [], 0, "t0", 9, "ex1", fun _ => .error "x"⟩
      ⟨"w1", "manual", Value.null⟩ ⟨[], 0⟩ [] = ([], ⟨[], 0⟩, Except.error e)) ∧
    (∃ e, Starter.process_record
      ⟨[("w2", ⟨some "W", some false, []⟩)], .ok [], 0, "t0", 9, "ex1", fun _ => .error "x"⟩
      ⟨"w2", "manual", Value.null⟩ ⟨[], 0⟩ [] = ([], ⟨[], 0⟩, Except.error e)) := by
  constructor
  · exact C8_reject_missing_or_disabled _ _ _ _ (Or.inl (by rfl))
  · exact C8_reject_missing_or_disabled _ _ _ _
      (Or.inr ⟨⟨some "W", some false, []⟩, by rfl, by rfl⟩)

/-- C7: `sync_workflow_rule` realises the per-kind transition policy:
(1) old cron → new poll (valid config, poller ARN set) deletes the cron
rule and creates a poll rule; (2) old poll → no trigger deletes the poll
rule and creates nothing (every other rule is untouched); (3) called twice
in succession with the same valid cron trigger it succeeds both times, the
second call leaves the registry unchanged, and exactly one rule exists for
the workflow — no duplicate. -/
theorem C7_sync_rule_transitions :
    (∀ (cfg : Eb.EbConfig) (wid : String) (oldT newT : Eb.Trigger) (r : Eb.Registry),
      oldT.type = "cron" → newT.type = "poll" → newT.config.url.getD "" ≠ "" →
      cfg.pollerArn ≠ "" →
      ∃ r2, Eb.sync_workflow_rule cfg wid (some oldT) (some newT) r = .ok r2 ∧
        findAssoc r2 (Eb.get_rule_name cfg wid) = none ∧
        (findAssoc r2 (Eb.get_poll_rule_name cfg wid)).isSome = true) ∧
    (∀ (cfg : Eb.EbConfig) (wid : String) (oldT : Eb.Trigger) (r : Eb.Registry),
      oldT.type = "poll" →
      ∃ r2, Eb.sync_workflow_rule cfg wid (some oldT) none r = .ok r2 ∧
        findAssoc r2 (Eb.get_poll_rule_name cfg wid) = none ∧
        (∀ m, m ≠ Eb.get_poll_rule_name cfg wid → findAssoc r2 m = findAssoc r m)) ∧
    (∀ (cfg : Eb.EbConfig) (wid : String) (old1 : Option Eb.Trigger) (newT : Eb.Trigger)
       (r : Eb.Registry),
      newT.type = "cron" → newT.config.schedule.getD "" ≠ "" → cfg.cronHandlerArn ≠ "" →
      findAssoc r (Eb.get_rule_name cfg wid) = none →
      findAssoc r (Eb.get_poll_rule_name cfg wid) = none →
      ∃ r1, Eb.sync_workflow_rule cfg wid old1 (some newT) r = .ok r1 ∧
        Eb.sync_workflow_rule cfg wid (some newT) (some newT) r1 = .ok r1 ∧
        Eb.countKey r1 (Eb.get_rule_name cfg wid) = 1 ∧
        Eb.countKey r1 (Eb.get_poll_rule_name cfg wid) = 0) := by
  refine ⟨?_, ?_, ?_⟩
  · intro cfg wid oldT newT r hold hnew hurl harn
    obtain ⟨r1, hd, hdc, hdo⟩ := delete_schedule_rule_spec cfg wid r
    obtain ⟨r2, hc2, hcs, hco⟩ :=
      create_poll_rule_spec cfg wid (newT.config.interval_minutes.getD 15) r1 harn
    refine ⟨r2, ?_, ?_, hcs⟩
    · simp [Eb.sync_workflow_rule, hold, hnew, hd, hurl, hc2, except_bind_ok]
    · rw [hco _ (rule_names_ne cfg wid), hdc]
  · intro cfg wid oldT r hold
    obtain ⟨r2, hd, hdp, hdo⟩ := delete_poll_rule_spec cfg wid r
    refine ⟨r2, ?_, hdp, hdo⟩
    simp [Eb.sync_workflow_rule, hold, hd, except_bind_ok]
  · intro cfg wid old1 newT r hc hsched harn hcn hpn
    have hcreate := create_schedule_rule_fresh cfg wid (newT.config.schedule.getD "") r
      harn hcn
    have habs : findAssoc (r ++ [(Eb.get_rule_name cfg wid,
        ({ scheduleExpression := "cron(" ++ newT.config.schedule.getD "" ++ ")",
           state := true,
           targets := [("cron-handler", cfg.cronHandlerArn)] } : Eb.EbRule))])
        (Eb.get_poll_rule_name cfg wid) = none := by
      rw [findAssoc_append, hpn, findAssoc_cons, if_neg (rule_names_ne cfg wid)]
      rfl
    have hdelno := delete_poll_rule_absent cfg wid _ habs
    have hagain := create_schedule_rule_again cfg wid (newT.config.schedule.getD "") r
      harn hcn
    refine ⟨r ++ [(Eb.get_rule_name cfg wid,
      { scheduleExpression := "cron(" ++ newT.config.schedule.getD "" ++ ")", state := true,
        targets := [("cron-handler", cfg.cronHandlerArn)] })], ?_, ?_, ?_, ?_⟩
    · rcases old1 with _ | t
      · simp [Eb.sync_workflow_rule, hc, hsched, hcreate, except_bind_ok]
      · by_cases ht : t.type = "poll"
        · simp [Eb.sync_workflow_rule, hc, hsched, hcreate, ht, hdelno, except_bind_ok]
        · simp [Eb.sync_workflow_rule, hc, hsched, hcreate, ht, except_bind_ok]
    · simp [Eb.sync_workflow_rule, hc, hsched, hagain, except_bind_ok]
    · rw [countKey_append, countKey_eq_zero _ _ hcn, countKey_cons]
      simp [Eb.countKey]
    · rw [countKey_append, countKey_eq_zero _ _ hpn, countKey_cons]
      rw [if_neg (rule_names_ne cfg wid)]
      rfl

/-- Witness for C7 at concrete inputs. -/
theorem C7_sync_rule_transitions_witness :
    (∃ r2, Eb.sync_workflow_rule ⟨"dev", "arnC", "arnP"⟩ "wf1"
        (some ⟨"cron", ⟨some "0 12 * * ? *", none, none⟩⟩)
        (some ⟨"poll", ⟨none, some "http://x", some 15⟩⟩) [] = .ok r2 ∧
      findAssoc r2 (Eb.get_rule_name ⟨"dev", "arnC", "arnP"⟩ "wf1") = none ∧
      (findAssoc r2 (Eb.get_poll_rule_name ⟨"dev", "arnC", "arnP"⟩ "wf1")).isSome = true) ∧
    (∃ r2, Eb.sync_workflow_rule ⟨"dev", "arnC", "arnP"⟩ "wf1"
        (some ⟨"poll", ⟨none, some "http://x", some 15⟩⟩) none [] = .ok r2 ∧
      findAssoc r2 (Eb.get_poll_rule_name ⟨"dev", "arnC", "arnP"⟩ "wf1") = none ∧
      (∀ m, m ≠ Eb.get_poll_rule_name ⟨"dev", "arnC", "arnP"⟩ "wf1" →
        findAssoc r2 m = findAssoc ([] : Eb.Registry) m)) ∧
    (∃ r1, Eb.sync_workflow_rule ⟨"dev", "arnC", "arnP"⟩ "wf1" none
        (some ⟨"cron", ⟨some "0 12 * * ? *", none, none⟩⟩) [] = .ok r1 ∧
      Eb.sync_workflow_rule ⟨"dev", "arnC", "arnP"⟩ "wf1"
        (some ⟨"cron", ⟨some "0 12 * * ? *", none, none⟩⟩)
        (some ⟨"cron", ⟨some "0 12 * * ? *", none, none⟩⟩) r1 = .ok r1 ∧
      Eb.countKey r1 (Eb.get_rule_name ⟨"dev", "arnC", "arnP"⟩ "wf1") = 1 ∧
      Eb.countKey r1 (Eb.get_poll_rule_name ⟨"dev", "arnC", "arnP"⟩ "wf1") = 0) := by
  obtain ⟨h1, h2, h3⟩ := C7_sync_rule_transitions
  exact ⟨h1 _ "wf1" _ _ [] rfl rfl (by decide) (by decide),
         h2 _ "wf1" _ [] rfl,
         h3 _ "wf1" none _ [] rfl (by decide) (by decide) rfl rfl⟩

/-- C1 counterexample: the claim promises a step-results array of length
|S| for every orchestrator output including malformed ones, but an output
that is valid JSON of non-object shape (here the JSON document `5`) makes
`parse_step_results` raise `AttributeError` (the chained `.get` calls are
outside the `except (JSONDecodeError, TypeError)` clause), so no array is
returned at all. -/
theorem C1_counterexample :
    Starter.parse_step_results (some (Except.ok (Value.int 5)))
      [⟨some "s1", some "Step 1", some "log"⟩] none none
      = Except.error "AttributeError: object has no attribute get" := by rfl

/-- C1 (amended): whenever `parse_step_results` returns an array (rather
than raising on a wrongly shaped output), the array has length exactly |S|
and is in the order of S; with an integer failing index i, steps before i
are `success`, step i is `failed` carrying the composed error message, and
steps after i are `skipped`; with no failing index, a step is `success`
iff its step id appears in the orchestrator's reported steps, else
`skipped`. -/
theorem C1_parse_step_results (sfn_output : Option (Except String Value))
    (workflow_steps : List Starter.StepDef) (fi : Option Int) (em : Option String)
    (res : List Starter.StepResult)
    (h : Starter.parse_step_results sfn_output workflow_steps (fi.map Value.int) em
      = .ok res) :
    res.length = workflow_steps.length ∧
    (∀ i sd sr, workflow_steps.get? i = some sd → res.get? i = some sr →
      sr.step_id = Starter.stepIdOf i sd ∧
      (∀ k, fi = some k →
        sr.status = (if (i : Int) < k then "success"
                     else if (i : Int) = k then "failed" else "skipped") ∧
        ((i : Int) = k → sr.error = Starter.errorValue em)) ∧
      (fi = none → ∀ cf, Starter.extractContextSteps sfn_output = .ok (Value.dict cf) →
        sr.status = (if hasKey cf (Starter.stepIdOf i sd) then "success" else "skipped"))) := by
  cases hext : Starter.extractContextSteps sfn_output with
  | error e =>
      simp only [Starter.parse_step_results, hext, except_bind_error] at h
      exact Except.noConfusion h
  | ok ctxv =>
      simp only [Starter.parse_step_results, hext, except_bind_ok] at h
      obtain ⟨hlen, hget⟩ :=
        buildSteps_ok_spec ctxv (fi.map Value.int) em 0 workflow_steps res h
      refine ⟨hlen, ?_⟩
      intro i sd sr hi hri
      obtain ⟨sr2, hr2, hb⟩ := hget i sd hi
      rw [hri] at hr2
      injection hr2 with hr2
      subst hr2
      have hzero : 0 + i = i := by omega
      rw [hzero] at hb
      refine ⟨(buildStep_ok_ids _ _ _ _ _ _ hb).1, ?_, ?_⟩
      · intro k hk
        exact buildStep_ok_failed_mode ctxv em i k sd sr (by rw [hk] at hb; exact hb)
      · intro hnone cf hcf
        have hs := buildStep_ok_success_mode ctxv em i sd sr (by rw [hnone] at hb; exact hb)
        injection hcf with hcf
        exact hs cf hcf

/-- Witness for C1's amended theorem at concrete inputs (one successful
parse in success mode, one in failed-index mode). -/
theorem C1_parse_step_results_witness :
    ([(⟨"s1", "Step One", "log", "success", none, none, Value.null, Value.null,
        Value.str "o", Value.null⟩ : Starter.StepResult),
      ⟨"s2", "Step Two", "notify", "skipped", none, none, Value.null, Value.null,
        Value.null, Value.null⟩].length
      = [(⟨some "s1", some "Step One", some "log"⟩ : Starter.StepDef),
         ⟨some "s2", some "Step Two", some "notify"⟩].length) ∧
    ((⟨"s2", "Step Two", "notify", "skipped", none, none, Value.null, Value.null,
        Value.null, Value.null⟩ : Starter.StepResult).status
      = (if hasKey [("s1", Value.dict [("output", Value.str "o")])] "s2"
         then "success" else "skipped")) ∧
    ((⟨"b", "B", "log", "failed", none, none, Value.null, Value.null, Value.null,
        Value.str "Boom"⟩ : Starter.StepResult).status
      = (if (1 : Int) < 1 then "success" else if (1 : Int) = 1 then "failed"
         else "skipped")) ∧
    ((⟨"b", "B", "log", "failed", none, none, Value.null, Value.null, Value.null,
        Value.str "Boom"⟩ : Starter.StepResult).error = Value.str "Boom") := by
  have h1 := C1_parse_step_results
    (some (Except.ok (Value.dict [("context", Value.dict [("steps",
      Value.dict [("s1", Value.dict [("output", Value.str "o")])])])])))
    [⟨some "s1", some "Step One", some "log"⟩, ⟨some "s2", some "Step Two", some "notify"⟩]
    none none
    [⟨"s1", "Step One", "log", "success", none, none, Value.null, Value.null,
       Value.str "o", Value.null⟩,
     ⟨"s2", "Step Two", "notify", "skipped", none, none, Value.null, Value.null,
       Value.null, Value.null⟩] (by rfl)
  have h2 := C1_parse_step_results none
    [⟨some "a", some "A", some "log"⟩, ⟨some "b", some "B", some "log"⟩,
     ⟨some "c", some "C", some "log"⟩]
    (some 1) (some "Boom")
    [⟨"a", "A", "log", "success", none, none, Value.null, Value.null, Value.null,
       Value.null⟩,
     ⟨"b", "B", "log", "failed", none, none, Value.null, Value.null, Value.null,
       Value.str "Boom"⟩,
     ⟨"c", "C", "log", "skipped", none, none, Value.null, Value.null, Value.null,
       Value.null⟩] (by rfl)
  refine ⟨h1.1, ?_, ?_, ?_⟩
  · exact (h1.2 1 ⟨some "s2", some "Step Two", some "notify"⟩ _ rfl rfl).2.2 rfl _ rfl
  · exact ((h2.2 1 ⟨some "b", some "B", some "log"⟩ _ rfl rfl).2.1 1 rfl).1
  · exact ((h2.2 1 ⟨some "b", some "B", some "log"⟩ _ rfl rfl).2.1 1 rfl).2 rfl

end AutoPlat
